import Mathlib

/-!
Shallow embedding of the travel-planning agent service
(`services/agent-service/main.py` and `services/agent-service/core/llm.py`).

Python strings are modelled as `List Char` (ASCII scope: the service only
manipulates ASCII keyword patterns and ISO dates).  Python `datetime` values
are modelled by their date component `Date` (`year`, `month`, `day`), since
the service only ever formats dates with `'%Y-%m-%d'` and steps them by whole
days.  External collaborators (MongoDB lookups, the Ollama backend, the Tavily
search API, the wall clock) are modelled as explicit oracle inputs in `Env`.
-/

namespace AgentService

/-- Python strings, modelled as lists of characters. -/
abbrev Str := List Char

/-- Embed a Lean string literal as a Python string value. -/
def str (s : String) : Str := s.data

/-- Python whitespace (`str.strip` / regex `\s`), ASCII scope: space, tab,
newline, carriage return, vertical tab, form feed (code points 32, 9, 10,
13, 11, 12). -/
def isPySpace (c : Char) : Bool :=
  c.toNat == 32 || c.toNat == 9 || c.toNat == 10
    || c.toNat == 13 || c.toNat == 11 || c.toNat == 12

/-- ASCII uppercase letter test (code points 65-90). -/
def isUpperAlpha (c : Char) : Bool := decide (65 ≤ c.toNat ∧ c.toNat ≤ 90)

/-- ASCII lowercase letter test (code points 97-122). -/
def isLowerAlpha (c : Char) : Bool := decide (97 ≤ c.toNat ∧ c.toNat ≤ 122)

/-- ASCII letter test (regex `[A-Za-z]`). -/
def isAsciiAlpha (c : Char) : Bool := isUpperAlpha c || isLowerAlpha c

/-- ASCII digit test (regex `\d`, ASCII scope; code points 48-57). -/
def isAsciiDigit (c : Char) : Bool := decide (48 ≤ c.toNat ∧ c.toNat ≤ 57)

/-- `str.lower` on one character (ASCII scope): add 32 to an uppercase
letter's code point. -/
def lowerChar (c : Char) : Char :=
  if isUpperAlpha c then Char.ofNat (c.toNat + 32) else c

/-- `str.upper` on one character (ASCII scope): subtract 32 from a lowercase
letter's code point. -/
def upperChar (c : Char) : Char :=
  if isLowerAlpha c then Char.ofNat (c.toNat - 32) else c

/-- Python `str.lower` (ASCII scope). -/
def pyLower (s : Str) : Str := s.map lowerChar

/-- Python `str.strip` with no argument: drop leading and trailing whitespace. -/
def pyStrip (s : Str) : Str :=
  ((s.dropWhile isPySpace).reverse.dropWhile isPySpace).reverse

/-- Python `str.title` on one character given whether the previous character
was a letter (letters after a letter are lowered, others are uppercased). -/
def titleStep (prevAlpha : Bool) (c : Char) : Char :=
  if isAsciiAlpha c then (if prevAlpha then lowerChar c else upperChar c) else c

/-- Python `str.title` (ASCII scope). -/
def pyTitle (s : Str) : Str :=
  (s.foldl (fun (acc : Str × Bool) c =>
    (acc.1 ++ [titleStep acc.2 c], isAsciiAlpha c)) ([], false)).1

/-- Is `p` a prefix of `s` (decidable, executable). -/
def prefixAt : Str → Str → Bool
  | [], _ => true
  | _ :: _, [] => false
  | p :: ps, c :: cs => p = c && prefixAt ps cs

/-- Python substring membership `needle in haystack`. -/
def pyContains (haystack needle : Str) : Bool :=
  match haystack with
  | [] => needle.isEmpty
  | _ :: rest => prefixAt needle haystack || pyContains rest needle

/-- Python `", ".join(...)` style join. -/
def pyJoin (sep : Str) : List Str → Str
  | [] => []
  | [x] => x
  | x :: xs => x ++ sep ++ pyJoin sep xs

/-- The ASCII character of a decimal digit. -/
def digitChar : Nat → Char
  | 0 => '0' | 1 => '1' | 2 => '2' | 3 => '3' | 4 => '4'
  | 5 => '5' | 6 => '6' | 7 => '7' | 8 => '8' | _ => '9'

/-- Decimal digits of a natural number, most significant first (fueled;
fuel `n + 1` always suffices since the value shrinks by a factor of 10). -/
def natDigitsAux : Nat → Nat → Str
  | 0, _ => []
  | fuel + 1, n =>
    if n < 10 then [digitChar n]
    else natDigitsAux fuel (n / 10) ++ [digitChar (n % 10)]

/-- Decimal digit string of a natural number. -/
def natDigits (n : Nat) : Str := natDigitsAux (n + 1) n

/-- Zero-pad a digit string on the left to width `w`. -/
def padLeft (w : Nat) (s : Str) : Str :=
  List.replicate (w - s.length) '0' ++ s

/-- Numeric value of an ASCII digit run (`int` applied to a digit string). -/
def natOfDigits (ds : Str) : Nat :=
  ds.foldl (fun acc c => acc * 10 + (c.toNat - '0'.toNat)) 0

/-- Order-preserving deduplication keeping the first occurrence of each value,
as Python `list(dict.fromkeys(...))`. -/
def dedupKeepFirst (l : List Str) : List Str :=
  go [] l
where
  /-- Walk the list keeping values not seen before. -/
  go (seen : List Str) : List Str → List Str
    | [] => []
    | x :: xs => if x ∈ seen then go seen xs else x :: go (x :: seen) xs

/-!
## `normalize_dietary_filters` (main.py lines 181-198)

The Python argument `pref_value` is untyped: the function special-cases a
single string and a list of strings, and treats anything else (including a
missing value, `None`) as empty.
-/

/-- The possible shapes of the `dietary` preference value. -/
inductive DietaryInput where
  | none
  | strVal (s : Str)
  | listVal (l : List Str)
deriving DecidableEq

/-- One pass of the normalization loop body: strip, lower-case, drop empties,
canonicalize the two gluten spellings. -/
def normElem (item : Str) : Option Str :=
  let val := pyLower (pyStrip item)
  if val = [] then Option.none
  else Option.some (if val = str "gluten free" || val = str "gluten-free"
                    then str "gluten-free" else val)

/-- `normalize_dietary_filters(pref_value, inferred)`: collect the source
values, append the inferred ones when truthy, normalize each element in order
(the source's append loop is an order-preserving `filterMap`), and finally
deduplicate keeping first occurrences (`dict.fromkeys`). -/
def normalize_dietary_filters (pref_value : DietaryInput)
    (inferred : Option (List Str)) : List Str :=
  let source : List Str :=
    match pref_value with
    | .none => []
    | .strVal s => [s]
    | .listVal l => l
  let values : List Str :=
    source ++ (match inferred with
               | Option.none => []
               | Option.some l => if l = [] then [] else l)
  dedupKeepFirst (values.filterMap normElem)

/-!
## Dates

The service only uses the date component of Python `datetime`: values are
parsed from `'YYYY-MM-DD'` strings (`datetime.fromisoformat` on the 10-char
slices the service produces), stepped by whole days (`timedelta(days=k)`),
compared, and formatted with `strftime('%Y-%m-%d')`.
-/

/-- A proleptic-Gregorian calendar date (the date component of a Python
`datetime`). -/
structure Date where
  year : Nat
  month : Nat
  day : Nat
deriving DecidableEq, Repr

/-- Gregorian leap-year rule (as Python's `calendar`/`datetime`). -/
def isLeapYear (y : Nat) : Bool :=
  (y % 4 == 0 && !(y % 100 == 0)) || y % 400 == 0

/-- Days in a month of a given year. -/
def daysInMonth (y m : Nat) : Nat :=
  match m with
  | 2 => if isLeapYear y then 29 else 28
  | 4 => 30
  | 6 => 30
  | 9 => 30
  | 11 => 30
  | _ => 31

/-- Days in the year strictly before month `m` (so `dayOfYear = this + day`). -/
def daysBeforeMonth (y m : Nat) : Nat :=
  let L : Nat := if isLeapYear y then 1 else 0
  match m with
  | 1 => 0
  | 2 => 31
  | 3 => 59 + L
  | 4 => 90 + L
  | 5 => 120 + L
  | 6 => 151 + L
  | 7 => 181 + L
  | 8 => 212 + L
  | 9 => 243 + L
  | 10 => 273 + L
  | 11 => 304 + L
  | 12 => 334 + L
  | _ => 365 + L

/-- Ordinal day within the year, 1-based (Python `timetuple().tm_yday`). -/
def dayOfYear (d : Date) : Nat := daysBeforeMonth d.year d.month + d.day

/-- Number of leap years in `1..n`. -/
def leaps (n : Nat) : Nat := n / 4 - n / 100 + n / 400

/-- Proleptic-Gregorian ordinal: `toOrd ⟨1,1,1⟩ = 1` (Python `toordinal`). -/
def toOrd (d : Date) : Nat :=
  365 * (d.year - 1) + leaps (d.year - 1) + dayOfYear d

/-- A structurally valid calendar date (what `fromisoformat` accepts;
Python `MINYEAR` is 1). -/
def dateValid (d : Date) : Prop :=
  1 ≤ d.year ∧ 1 ≤ d.month ∧ d.month ≤ 12 ∧ 1 ≤ d.day ∧ d.day ≤ daysInMonth d.year d.month

instance (d : Date) : Decidable (dateValid d) := by
  unfold dateValid; infer_instance

/-- The next calendar day (`+ timedelta(days=1)`, ignoring Python's
`MAXYEAR` overflow, which call sites check explicitly). -/
def nextDay (d : Date) : Date :=
  if d.day < daysInMonth d.year d.month then ⟨d.year, d.month, d.day + 1⟩
  else if d.month < 12 then ⟨d.year, d.month + 1, 1⟩
  else ⟨d.year + 1, 1, 1⟩

/-- `+ timedelta(days=n)`. -/
def addDays (d : Date) : Nat → Date
  | 0 => d
  | n + 1 => nextDay (addDays d n)

/-- Python `datetime` comparison `<` (lexicographic on year, month, day). -/
def dateLt (a b : Date) : Bool :=
  decide (a.year < b.year ∨ (a.year = b.year ∧
    (a.month < b.month ∨ (a.month = b.month ∧ a.day < b.day))))

/-- Python `datetime` comparison `<=`. -/
def dateLe (a b : Date) : Bool :=
  decide (a.year < b.year ∨ (a.year = b.year ∧
    (a.month < b.month ∨ (a.month = b.month ∧ a.day ≤ b.day))))

/-- Python `datetime.weekday()`: Monday = 0. -/
def weekday (d : Date) : Nat := (toOrd d + 6) % 7

/-- `strftime('%Y-%m-%d')` with zero-padded fields (4-digit year; `%Y`
padding below year 1000 is platform-dependent in CPython, and the service
only round-trips 4-digit years). -/
def pyFmtDate (d : Date) : Str :=
  padLeft 4 (natDigits d.year) ++ ['-'] ++ padLeft 2 (natDigits d.month)
    ++ ['-'] ++ padLeft 2 (natDigits d.day)

/-- Shape test for a `YYYY-MM-DD` calendar-date string: ten characters —
four digits, a hyphen, two digits, a hyphen, two digits. -/
def isYmdStr (s : Str) : Bool :=
  match s with
  | [a, b, c, d, h1, e, f, h2, g, h] =>
    isAsciiDigit a && isAsciiDigit b && isAsciiDigit c && isAsciiDigit d
      && h1 = '-' && isAsciiDigit e && isAsciiDigit f && h2 = '-'
      && isAsciiDigit g && isAsciiDigit h
  | _ => false

/-- `datetime.fromisoformat` restricted to the 10-character `YYYY-MM-DD`
strings the service feeds it; `Option.none` models the `ValueError` raise. -/
def parseIsoDate (s : Str) : Option Date :=
  match s with
  | [y1, y2, y3, y4, h1, mo1, mo2, h2, d1, d2] =>
    if (isAsciiDigit y1 && isAsciiDigit y2 && isAsciiDigit y3 && isAsciiDigit y4
        && isAsciiDigit mo1 && isAsciiDigit mo2 && isAsciiDigit d1 && isAsciiDigit d2)
        && h1 = '-' && h2 = '-' then
      let dt : Date := ⟨natOfDigits [y1, y2, y3, y4],
                        natOfDigits [mo1, mo2], natOfDigits [d1, d2]⟩
      if dateValid dt then Option.some dt else Option.none
    else Option.none
  | _ => Option.none

/-- Python exceptions that escape the helper functions uncaught. -/
inductive PyErr where
  | valueError (msg : Str)
  | overflowError
deriving DecidableEq

/-!
## `date_range` (main.py lines 169-179)

The source is a `while d <= d1` loop stepping by one day.  It is translated
with explicit fuel `toOrd d1 + 1 - toOrd d0` (exactly the number of
iterations, by `toOrd_nextDay`); running out of fuel yields the same `[]` as
a false loop guard, so the translation is exact for any sufficient fuel.
Python raises `OverflowError` when `d + timedelta(days=1)` passes `MAXYEAR`
(9999), which happens inside the loop body even on the final iteration; the
explicit year check models that raise. -/

/-- One fuel-indexed unfolding of the `while d <= d1` loop. -/
def drLoop : Nat → Date → Date → Except PyErr (List Str)
  | 0, _, _ => .ok []
  | fuel + 1, d, d1 =>
    if dateLe d d1 then
      let nd := nextDay d
      if 9999 < nd.year then .error .overflowError
      else
        match drLoop fuel nd d1 with
        | .error e => .error e
        | .ok rest => .ok (pyFmtDate d :: rest)
    else .ok []

/-- `date_range(start, end)`: parse both endpoints, reject `start > end` with
`ValueError`, then emit every day from start to end inclusive, formatted
`'%Y-%m-%d'`.  (The source's trailing `days or [...]` fallback is dead code:
the loop emits at least one entry whenever `d0 <= d1`.) -/
def date_range (start end_ : Str) : Except PyErr (List Str) :=
  match parseIsoDate start with
  | Option.none => .error (.valueError (str "Invalid isoformat string"))
  | Option.some d0 =>
    match parseIsoDate end_ with
    | Option.none => .error (.valueError (str "Invalid isoformat string"))
    | Option.some d1 =>
      if dateLt d1 d0 then
        .error (.valueError (str "Start date must be before or equal to end date"))
      else drLoop (toOrd d1 + 1 - toOrd d0) d0 d1

/-!
## `infer_context_from_free_text` (main.py lines 200-273)

The two `re` patterns are embedded as explicit backtracking matchers with
CPython's semantics: leftmost starting position wins; at a given position
greedy pieces (`\s+`, `\d+`) try longest first, the lazy group
`[A-Za-z\s]+?` tries shortest first, and alternatives are tried
left to right.
-/

/-- Character class `[A-Za-z\s]` of the location capture group. -/
def isClassChar (c : Char) : Bool := isAsciiAlpha c || isPySpace c

/-- Does one of the clause keywords `next|this|for|with` start here? -/
def locKwAt (cs : Str) : Bool :=
  prefixAt (str "next") cs || prefixAt (str "this") cs
    || prefixAt (str "for") cs || prefixAt (str "with") cs

/-- Does one of `kid|kids|child|children` start here? -/
def kidKwAt (cs : Str) : Bool :=
  prefixAt (str "kid") cs || prefixAt (str "kids") cs
    || prefixAt (str "child") cs || prefixAt (str "children") cs

/-- After at least one consumed space: does `kwAt` hold here or after more
spaces?  (Since no keyword starts with a space, this boolean agrees with
greedy-`\s+`-then-keyword under backtracking.) -/
def afterSpaces (kwAt : Str → Bool) : Str → Bool
  | [] => false
  | c :: rest => kwAt (c :: rest) || (isPySpace c && afterSpaces kwAt rest)

/-- `\s+` followed by a keyword from `kwAt`. -/
def wsThenKw (kwAt : Str → Bool) : Str → Bool
  | [] => false
  | c :: rest => isPySpace c && afterSpaces kwAt rest

/-- The location pattern's terminator `(?:\s+(?:next|this|for|with)|[,.;])`,
alternatives in source order. -/
def locTermMatch (cs : Str) : Bool :=
  wsThenKw locKwAt cs
    || (match cs with
        | c :: _ => c = ',' || c = '.' || c = ';'
        | [] => false)

/-- Lazy capture `([A-Za-z\s]+?)`: grow the group one class character at a
time, returning the first (shortest) extent whose continuation matches the
terminator. -/
def lazyGroup (acc : Str) : Str → Option Str
  | [] => Option.none
  | c :: rest =>
    if isClassChar c then
      let acc2 := acc ++ [c]
      if locTermMatch rest then Option.some acc2 else lazyGroup acc2 rest
    else Option.none

/-- Backtrack the greedy `\s+` after the literal `in` from `w` spaces down to
one, taking the first width whose remainder admits a lazy-group match. -/
def tryWs (cs : Str) : Nat → Option Str
  | 0 => Option.none
  | w + 1 =>
    match lazyGroup [] (cs.drop (w + 1)) with
    | Option.some g => Option.some g
    | Option.none => tryWs cs w

/-- Match `in\s+([A-Za-z\s]+?)(?:\s+(?:next|this|for|with)|[,.;])` anchored at
the start of `cs`, returning the captured group. -/
def matchLocAt : Str → Option Str
  | 'i' :: 'n' :: rest =>
    let n := (rest.takeWhile isPySpace).length
    if n = 0 then Option.none else tryWs rest n
  | _ => Option.none

/-- `re.search` of the location pattern: leftmost start wins. -/
def locSearch : Str → Option Str
  | [] => Option.none
  | cs =>
    match cs with
    | _ :: rest =>
      match matchLocAt cs with
      | Option.some g => Option.some g
      | Option.none => locSearch rest
    | [] => Option.none

/-- The third `re.split` delimiter of the fallback-location path.  The source
writes `r',|;|\\band\\b'` — a raw string, so the regex contains two escaped
backslashes and matches the literal seven characters `\band\b`, not a
word-bounded `and` (texts without backslashes are only split on `,`/`;`). -/
def splitDelimLit : Str := ['\\', 'b', 'a', 'n', 'd', '\\', 'b']

/-- `re.split(r',|;|\\band\\b', text)`: scan left to right, alternatives in
source order.  Fueled because the 7-character delimiter skips ahead; fuel
`text.length` always suffices (each step consumes at least one character). -/
def pySplitFrag : Nat → Str → Str → List Str
  | _, acc, [] => [acc.reverse]
  | 0, acc, rest => [acc.reverse ++ rest]
  | fuel + 1, acc, c :: rest =>
    if c = ',' || c = ';' then acc.reverse :: pySplitFrag fuel [] rest
    else if prefixAt splitDelimLit (c :: rest) then
      acc.reverse :: pySplitFrag fuel [] ((c :: rest).drop 7)
    else pySplitFrag fuel (c :: acc) rest

/-- Match `(\d+)\s+(kid|kids|child|children)` anchored at the start of `cs`,
returning the numeric capture.  (`\d+` never needs to backtrack: a shorter
digit run is followed by a digit, not whitespace.) -/
def kidsMatchAt (cs : Str) : Option Nat :=
  let digits := cs.takeWhile isAsciiDigit
  if digits.isEmpty then Option.none
  else if wsThenKw kidKwAt (cs.drop digits.length) then Option.some (natOfDigits digits)
  else Option.none

/-- `re.search` of the kid-count pattern: leftmost start wins. -/
def kidsSearch : Str → Option Nat
  | [] => Option.none
  | cs =>
    match cs with
    | _ :: rest =>
      match kidsMatchAt cs with
      | Option.some n => Option.some n
      | Option.none => kidsSearch rest
    | [] => Option.none

/-- The fixed interest keyword table of the extractor, in source order. -/
def interestKeywordPairs : List (Str × Str) :=
  [(str "museum", str "museums"), (str "art", str "art"), (str "food", str "food"),
   (str "park", str "parks"), (str "hike", str "hiking"), (str "beach", str "beach"),
   (str "history", str "history"), (str "music", str "music")]

/-- The extractor's interest loop: append each keyword's normalized form when
the lowered text contains the keyword and it is not already present.  (In the
source this is an in-place `append` on the caller's list; the aliasing is
modelled at the call site in the request handler.) -/
def extend_interests (interests : List Str) (lowered : Str) : List Str :=
  interestKeywordPairs.foldl (fun acc kv =>
    if pyContains lowered kv.1 ∧ kv.2 ∉ acc then acc ++ [kv.2] else acc) interests

/-- Truthiness of an optional string (Python `if x:`). -/
def truthyStr : Option Str → Bool
  | Option.some s => !s.isEmpty
  | Option.none => false

/-- The `preferences.dates` sub-dictionary. -/
structure PrefDates where
  start : Option Str := Option.none
  end_ : Option Str := Option.none
deriving DecidableEq

/-- The loosely-typed `preferences` dictionary: `Option.none` models an
absent key (`setdefault` distinguishes absence from falsiness, so both are
represented). -/
structure Prefs where
  interests : Option (List Str) := Option.none
  budget : Option Str := Option.none
  dietary : Option DietaryInput := Option.none
  mobility : Option Str := Option.none
  dates : Option PrefDates := Option.none
deriving DecidableEq

/-- The dictionary returned by `infer_context_from_free_text`. -/
structure Derived where
  location : Option Str
  dates_start : Str
  dates_end : Str
  guests : Nat
  kids : Nat
  party_type : Str
  budget : Str
  interests : List Str
  dietary : List Str
  easy_mobility : Bool
deriving DecidableEq

/-- The budget keyword heuristic of the extractor. -/
def inferBudgetFromText (lowered : Str) : Str :=
  if pyContains lowered (str "low budget") || pyContains lowered (str "budget")
      || pyContains lowered (str "cheap") || pyContains lowered (str "affordable") then
    str "low"
  else if pyContains lowered (str "luxury") || pyContains lowered (str "high-end")
      || pyContains lowered (str "splurge") || pyContains lowered (str "premium") then
    str "high"
  else str "mid"

/-- The dietary tag scan of the extractor, in source order; a tag containing
`gluten` is recorded as `gluten-free` (both spellings can append, so the
result may contain duplicates — the source does not deduplicate here). -/
def inferDietaryFromText (lowered : Str) : List Str :=
  [str "vegan", str "vegetarian", str "gluten-free", str "gluten free",
   str "halal", str "kosher"].foldl
    (fun acc tag =>
      if pyContains lowered tag then
        acc ++ [if pyContains tag (str "gluten") then str "gluten-free" else tag]
      else acc) []

/-- The accessibility keyword scan of the extractor. -/
def inferMobilityFromText (lowered : Str) : Bool :=
  pyContains lowered (str "wheelchair") || pyContains lowered (str "stroller")
    || pyContains lowered (str "no long hike") || pyContains lowered (str "no hikes")
    || pyContains lowered (str "accessible")

/-- The extractor's location heuristic: the regex capture when it matches
and survives `strip`, else the first non-empty split fragment, else the
(possibly falsy) regex leftover. -/
def inferLocation (text : Str) : Option Str :=
  let loc0 : Option Str := (locSearch text).map pyStrip
  let fragments : List Str :=
    ((pySplitFrag text.length [] text).map pyStrip).filter (fun p => !p.isEmpty)
  if truthyStr loc0 then loc0
  else match fragments with
       | f :: _ => Option.some f
       | [] => loc0

/-- The extractor's date anchoring: now+3, overridden to now+7 for
`next week`, the upcoming Friday for `weekend`, now+1 for `tomorrow`. -/
def inferStartDate (today : Date) (lowered : Str) : Date :=
  if pyContains lowered (str "next week") then addDays today 7
  else if pyContains lowered (str "this weekend")
      || pyContains lowered (str "weekend") then
    addDays today ((4 + 7 - weekday today) % 7)
  else if pyContains lowered (str "tomorrow") then addDays today 1
  else addDays today 3

/-- The extractor's trip duration: 7 when the text mentions `week`, else 3. -/
def inferDuration (lowered : Str) : Nat :=
  if pyContains lowered (str "week") then 7 else 3

/-- The extractor's kid count: the regex capture, else 2 on a bare
`kids`/`children` mention, else 0. -/
def inferKids (lowered : Str) : Nat :=
  match kidsSearch lowered with
  | Option.some n => n
  | Option.none =>
    if pyContains lowered (str "kids") || pyContains lowered (str "children")
    then 2 else 0

/-- The extractor's party type. -/
def inferPartyType (kids : Nat) (lowered : Str) : Str :=
  if kids > 0 || pyContains lowered (str "family") then str "family"
  else if pyContains lowered (str "friends") then str "friends"
  else str "couple"

/-- `infer_context_from_free_text(free_text, base_preferences)`: heuristic
extraction of booking context from free-form text, relative to the current
date `today` (`datetime.now()`).  `Option.none` models the `{}` returned for
falsy `free_text`. -/
def infer_context_from_free_text (today : Date) (free_text : Option Str)
    (base : Prefs) : Option Derived :=
  match free_text with
  | Option.none => Option.none
  | Option.some ft =>
    if ft.isEmpty then Option.none
    else
      let text := pyStrip ft
      let lowered := pyLower text
      let location := inferLocation text
      let start_date := inferStartDate today lowered
      let duration := inferDuration lowered
      let pref_dates : PrefDates :=
        match base.dates with
        | Option.some pd => pd
        | Option.none => {}
      let start : Str :=
        match pref_dates.start with
        | Option.some s => if s.isEmpty then pyFmtDate start_date else s
        | Option.none => pyFmtDate start_date
      let end_ : Str :=
        match pref_dates.end_ with
        | Option.some s =>
          if s.isEmpty then pyFmtDate (addDays start_date (duration - 1)) else s
        | Option.none => pyFmtDate (addDays start_date (duration - 1))
      let kids := inferKids lowered
      let party_type := inferPartyType kids lowered
      let interests0 : List Str :=
        match base.interests with
        | Option.some l => l
        | Option.none => []
      let interests := extend_interests interests0 lowered
      let budget : Str :=
        match base.budget with
        | Option.some b => if b.isEmpty then inferBudgetFromText lowered else b
        | Option.none => inferBudgetFromText lowered
      Option.some
        { location := location
          dates_start := start
          dates_end := end_
          guests := kids + 2
          kids := kids
          party_type := party_type
          budget := budget
          interests := interests
          dietary := inferDietaryFromText lowered
          easy_mobility := inferMobilityFromText lowered }

/-!
## Response builders (main.py lines 275-402)
-/

/-- Lexicographic order on strings (Python `<` on `str`, ASCII scope). -/
def strLtB : Str → Str → Bool
  | [], [] => false
  | [], _ :: _ => true
  | _ :: _, [] => false
  | a :: as_, b :: bs => a < b || (a = b && strLtB as_ bs)

/-- Insert into a sorted list (auxiliary for Python `sorted`). -/
def insSorted (x : Str) : List Str → List Str
  | [] => [x]
  | y :: ys => if strLtB y x then y :: insSorted x ys else x :: y :: ys

/-- Python `sorted` on a list of strings (insertion sort). -/
def pySorted (l : List Str) : List Str := l.foldr insSorted []

/-- Split a string on one character (Python `str.split(ch)`). -/
def splitOnChar (ch : Char) : Str → List Str
  | [] => [[]]
  | c :: rest =>
    if c = ch then [] :: splitOnChar ch rest
    else
      match splitOnChar ch rest with
      | h :: t => (c :: h) :: t
      | [] => [[c]]

/-- `price_tier_from_budget(budget)`: the fixed mapping with `'$$'` default;
a falsy budget is replaced by `'mid'` before lookup. -/
def price_tier_from_budget (budget : Str) : Str :=
  let b := pyLower (if budget.isEmpty then str "mid" else budget)
  if b = str "low" ∨ b = str "budget" then str "$"
  else if b = str "mid" ∨ b = str "medium" ∨ b = str "standard" then str "$$"
  else if b = str "high" ∨ b = str "premium" then str "$$$"
  else str "$$"

/-- An activity card.  The source's constant `coordinates` dictionary
(`{'lat': None, 'lng': None}`) carries no data and is represented by the
always-`none` pair. -/
structure ActivityCard where
  title : Str
  address : Str
  coordinates : Option Int × Option Int := (Option.none, Option.none)
  priceTier : Str
  durationMinutes : Nat
  tags : List Str
  wheelchairFriendly : Bool
  kidFriendly : Bool
  description : Str
deriving DecidableEq

/-- The fixed description table of `build_activity_card`, keyed by the
lowered interest, with the generic default. -/
def descriptionFor (interest_lower : Str) : Str :=
  if interest_lower = str "food" then str "Guided tasting of local bites and markets."
  else if interest_lower = str "museums" then str "Curated visits with timed entry to avoid lines."
  else if interest_lower = str "parks" then str "Open-air time with shaded rest areas."
  else if interest_lower = str "architecture" then str "Self-guided walk covering iconic landmarks."
  else if interest_lower = str "beach" then str "Seaside relaxation with accessible boardwalk."
  else if interest_lower = str "history" then str "Story-led walk with expert guide."
  else if interest_lower = str "music" then str "Live performance with reserved seating."
  else if interest_lower = str "hiking" then str "Gentle trail with lookout points."
  else str "Immersive local experience tailored by the concierge agent."

/-- The daypart title table of `build_activity_card`, with its default. -/
def titleFor (interest daypart : Str) : Str :=
  if daypart = str "morning" then pyTitle interest ++ str " kick-off"
  else if daypart = str "afternoon" then str "Deep dive into " ++ interest
  else if daypart = str "evening" then pyTitle interest ++ str " wind-down"
  else pyTitle interest ++ str " experience"

/-- `build_activity_card` (main.py lines 287-315). -/
def build_activity_card (location interest daypart price_tier : Str)
    (accessible kid_friendly : Bool) : ActivityCard :=
  let interest_lower := pyLower (if interest.isEmpty then str "local culture" else interest)
  { title := titleFor interest daypart
    address := location ++ str " - " ++ pyTitle interest ++ str " district"
    priceTier := price_tier
    durationMinutes := if daypart ≠ str "evening" then 120 else 150
    tags := pySorted (dedupKeepFirst [interest_lower, daypart, str "local-experience"])
    wheelchairFriendly := accessible
      || decide (interest_lower ∈ [str "food", str "museums", str "parks", str "history", str "music"])
    kidFriendly := kid_friendly
      || decide (interest_lower ∈ [str "parks", str "food", str "music", str "beach"])
    description := descriptionFor interest_lower }

/-- One day of the structured output itinerary. -/
structure DayPlan where
  day : Str
  theme : Str
  summary : Str
  activities : List ActivityCard
deriving DecidableEq

/-- `build_day_plans` (main.py lines 317-335): one plan per day, interests
cycled by day index, three cards per day (morning, afternoon, evening). -/
def build_day_plans (days : List Str) (location : Str) (interests : List Str)
    (budget : Str) (accessible kid_friendly : Bool) : List DayPlan :=
  let interests2 := if interests.isEmpty then [str "local culture"] else interests
  let price_tier := price_tier_from_budget budget
  days.enum.map (fun p =>
    let interest := interests2.getD (p.1 % interests2.length) []
    { day := p.2
      theme := pyTitle interest
      summary := str "Focus on " ++ interest ++ str " highlights in " ++ location ++ str "."
      activities :=
        [build_activity_card location interest (str "morning") price_tier accessible kid_friendly,
         build_activity_card location interest (str "afternoon") price_tier accessible kid_friendly,
         build_activity_card location interest (str "evening") price_tier accessible kid_friendly] })

/-- A Tavily search result as reshaped by `tavily_search` (title, url,
snippet keys always present). -/
structure TavilyItem where
  title : Str
  url : Str
  snippet : Str
deriving DecidableEq

/-- A restaurant recommendation. -/
structure RestaurantRec where
  name : Str
  address : Str
  priceTier : Str
  dietaryOptions : List Str
  tags : List Str
  wheelchairFriendly : Bool
  kidFriendly : Bool
  sourceUrl : Option Str
  summary : Str
deriving DecidableEq

/-- The static fallback restaurant name `"Chef's Table"`. -/
def chefsTable : Str := str "Chef" ++ ['\''] ++ str "s Table"

/-- `build_restaurant_recommendations` (main.py lines 337-367): reshape the
first three enrichment results; when there are none, emit the single static
fallback whose name depends on `'vegan' in dietary_filters` (checked after
the `['general']` defaulting). -/
def build_restaurant_recommendations (location : Str) (dietary_filters : List Str)
    (budget : Str) (accessible kid_friendly : Bool)
    (tavily_results : List TavilyItem) : List RestaurantRec :=
  let price_tier := price_tier_from_budget budget
  let dietary_filters2 := if dietary_filters.isEmpty then [str "general"] else dietary_filters
  let recs := (tavily_results.take 3).map (fun item =>
    { name := pyStrip ((splitOnChar '|' item.title).headD [])
      address := location
      priceTier := price_tier
      dietaryOptions := dietary_filters2
      tags := [str "restaurant", str "local"] ++ dietary_filters2
      wheelchairFriendly := accessible
      kidFriendly := kid_friendly
      sourceUrl := Option.some item.url
      summary := item.snippet })
  if recs.isEmpty then
    [{ name := if str "vegan" ∈ dietary_filters2 then str "Plant-Based Kitchen" else chefsTable
       address := location ++ str " city center"
       priceTier := price_tier
       dietaryOptions := dietary_filters2
       tags := [str "restaurant"] ++ dietary_filters2
       wheelchairFriendly := accessible
       kidFriendly := kid_friendly
       sourceUrl := Option.none
       summary := str "Curated option that meets the requested dietary filters." }]
  else recs

/-- A packing-checklist entry. -/
structure ChecklistItem where
  item : Str
  reason : Str
deriving DecidableEq

/-- `build_packing_checklist` (main.py lines 369-387).  The `month` read
re-parses `start` (raising `ValueError` on garbage, falling back to the
current month only when `start` is falsy). -/
def build_packing_checklist (location start _end_ : Str)
    (kid_friendly accessible : Bool) (dietary_filters : List Str)
    (today : Date) : Except PyErr (List ChecklistItem) :=
  let base : List ChecklistItem :=
    [{ item := str "Travel documents & insurance",
       reason := str "Required for all international trips." },
     { item := str "Comfortable walking shoes",
       reason := location ++ str " features cobblestones and hills." },
     { item := str "Layered outfits",
       reason := str "Mornings and evenings can differ in temperature." }]
  let l1 := base ++ (if accessible then
    [{ item := str "Lightweight mobility accessories",
       reason := str "Keeps transitions comfortable between activities." }] else [])
  let l2 := l1 ++ (if kid_friendly then
    [{ item := str "Portable snacks & entertainment",
       reason := str "Keeps younger travelers engaged between stops." },
     { item := str "Collapsible stroller or carrier",
       reason := str "Helpful for longer walking segments." }] else [])
  let l3 := l2 ++ (if !dietary_filters.isEmpty then
    [{ item := str "Diet-friendly snacks",
       reason := str "Backup in case specialty restaurants are closed." }] else [])
  let monthE : Except PyErr Nat :=
    if start.isEmpty then .ok today.month
    else match parseIsoDate start with
         | Option.some d => .ok d.month
         | Option.none => .error (.valueError (str "Invalid isoformat string"))
  match monthE with
  | .error e => .error e
  | .ok month =>
    .ok (l3 ++ [if month = 12 ∨ month = 1 ∨ month = 2 then
      { item := str "Light rain jacket", reason := str "Seasonal showers are common." }
    else
      { item := str "Reusable water bottle",
        reason := str "Stay hydrated during outdoor segments." }])

/-- `flatten_activity_cards` (main.py lines 389-390). -/
def flatten_activity_cards (day_plans : List DayPlan) : List ActivityCard :=
  (day_plans.map (fun p => p.activities)).flatten

/-- One legacy itinerary entry `{day, morning, afternoon, evening}`. -/
structure ItinDay where
  day : Str
  morning : List Str
  afternoon : List Str
  evening : List Str
deriving DecidableEq

/-- `generate_legacy_itinerary` (main.py lines 392-402). -/
def generate_legacy_itinerary (day_plans : List DayPlan) : List ItinDay :=
  day_plans.map (fun plan =>
    { day := plan.day
      morning := ((plan.activities.get? 0).map (fun a => [a.title])).getD []
      afternoon := ((plan.activities.get? 1).map (fun a => [a.title])).getD []
      evening := ((plan.activities.get? 2).map (fun a => [a.title])).getD [] })

/-!
## Request handler (main.py lines 101-142 and 404-681)

External collaborators are oracles in `Env`: the MongoDB booking lookup
(`fetch_booking_context`, whose internal `try/except` maps both a missing
record and any lookup exception to `None`), the Ollama backend, the two
Tavily queries, and the wall clock.  Request errors are `PlanError.http`
(a raised `HTTPException`); exceptions the handler does not catch are
`PlanError.uncaught` (FastAPI turns them into a generic server error).
-/

/-- A raised `HTTPException`, or an exception the handler never catches. -/
inductive PlanError where
  | http (status_code : Nat) (detail : Str)
  | uncaught (e : PyErr)
deriving DecidableEq

/-- The decoded JWT claim set, restricted to the claims the service reads:
presence of `'id'` and the value of `'role'`. -/
structure JwtPayload where
  hasId : Bool
  role : Option Str
deriving DecidableEq

/-- Outcome of `jwt.decode` with the configured secret and `HS256`. -/
inductive DecodeResult where
  | expiredSignature
  | invalidToken (msg : Str)
  | decoded (payload : JwtPayload)
deriving DecidableEq

/-- `verify_jwt_token` (main.py lines 113-142): `decode` is the
`jwt.decode(token, JWT_SECRET, ['HS256'])` oracle. -/
def verify_jwt_token (jwtSecret : Str) (credentials : Option Str)
    (decode : Str → DecodeResult) : Except PlanError JwtPayload :=
  if jwtSecret.isEmpty then
    .error (.http 503 (str "Authentication system is not configured."))
  else
    match credentials with
    | Option.none => .error (.http 401 (str "Authorization header missing"))
    | Option.some token =>
      match decode token with
      | .expiredSignature => .error (.http 401 (str "Token has expired"))
      | .invalidToken m => .error (.http 401 (str "Invalid token: " ++ m))
      | .decoded payload =>
        if ¬payload.hasId ∨ payload.role ≠ Option.some (str "TRAVELER") then
          .error (.http 403 (str "Invalid token or role"))
        else .ok payload

/-- What `generate_itinerary`'s backend call produces (core/llm.py lines
38-72): the `llm.invoke` raw text is abstracted to whether it yields a JSON
array — directly or via the first bracket-delimited substring —
(`returns (some l)`), yields no parseable array (`returns none`), or the
call raises (`raises`). -/
inductive BackendResult where
  | raises
  | returns (parsed : Option (List ItinDay))
deriving DecidableEq

/-- `generate_itinerary` (core/llm.py lines 38-72): every failure path —
exception, unparseable output — is caught and becomes `[]`. -/
def generate_itinerary (backend : BackendResult) : List ItinDay :=
  match backend with
  | .raises => []
  | .returns Option.none => []
  | .returns (Option.some l) => l

/-- Outcome of one Tavily HTTP query. -/
inductive TavilyOutcome where
  | errored
  | results (items : List TavilyItem)
deriving DecidableEq

/-- `tavily_search` (main.py lines 404-418): a missing API key or any
`RequestException` is swallowed and yields `[]`. -/
def tavily_search : TavilyOutcome → List TavilyItem
  | .errored => []
  | .results items => items

/-- The booking document as returned by `fetch_booking_context` (city,
country and title merged in from the property lookup when resolvable).
Field values model the keys the handler reads; `Option.none` is an absent
key. -/
structure BookingCtx where
  city : Option Str := Option.none
  country : Option Str := Option.none
  startDate : Option Str := Option.none
  endDate : Option Str := Option.none
  guests : Option Int := Option.none
  party : Option Str := Option.none
  kids : Option Int := Option.none

/-- The `party` sub-dictionary of an inline booking object. -/
structure PartyInfo where
  type_ : Option Str := Option.none
  kids : Option Int := Option.none
deriving DecidableEq

/-- An inline `booking` object.  `AgentRequest.booking = some b` models a
truthy (non-empty) dictionary; Python's `elif req.booking:` treats `None`
and `{}` alike, both modelled as `Option.none`. -/
structure InlineBooking where
  location : Option Str := Option.none
  dates : Option PrefDates := Option.none
  guests : Option Int := Option.none
  party : Option PartyInfo := Option.none
  kids : Option Int := Option.none
deriving DecidableEq

/-- The request body (`AgentRequest` pydantic model, main.py lines 101-105). -/
structure AgentRequest where
  bookingId : Option Str := Option.none
  booking : Option InlineBooking := Option.none
  preferences : Prefs := {}
  free_text : Option Str := Option.none

/-- The oracle environment of one request: configuration, external
collaborators, and the wall clock (`datetime.now()`'s date). -/
structure Env where
  useOllama : Bool
  ollamaModel : Str
  lookup : Str → Option BookingCtx
  backend : BackendResult
  tavilyRestaurants : TavilyOutcome
  tavilyTips : TavilyOutcome
  today : Date

/-- The resolved trip parameters of one request. -/
structure TripContext where
  location : Str
  start : Str
  end_ : Str
  guests : Int
  party_type : Str
  kids : Int
  derived_from_free_text : Bool
deriving DecidableEq

/-- The context-resolution segment of `plan` (main.py lines 426-468):
produce a `TripContext` from the first truthy source
(`bookingId` → `booking` → `free_text`), or raise.  Returns the preference
set as it stands after this segment: on the free-text path the derived
context is folded in via `setdefault`, the extractor's in-place `append`
has extended a non-empty caller `interests` list (aliasing), and a detected
accessibility need overwrites `mobility`. -/
def resolveContext (env : Env) (req : AgentRequest) :
    Except PlanError (TripContext × Prefs) :=
  if truthyStr req.bookingId then
    match env.lookup (req.bookingId.getD []) with
    | Option.none => .error (.http 404 (str "Booking not found"))
    | Option.some ctx =>
      let location := pyJoin (str ", ")
        (([ctx.city, ctx.country].filterMap id).filter (fun s => !s.isEmpty))
      let start := match ctx.startDate with
        | Option.some s => if s.isEmpty then pyFmtDate (addDays env.today 1) else s.take 10
        | Option.none => pyFmtDate (addDays env.today 1)
      let end_ := match ctx.endDate with
        | Option.some s => if s.isEmpty then pyFmtDate (addDays env.today 3) else s.take 10
        | Option.none => pyFmtDate (addDays env.today 3)
      .ok ({ location := location, start := start, end_ := end_,
             guests := ctx.guests.getD 2,
             party_type := ctx.party.getD (str "couple"),
             kids := ctx.kids.getD 0,
             derived_from_free_text := false }, req.preferences)
  else
    match req.booking with
    | Option.some b =>
      let dates := b.dates.getD {}
      let start := (match dates.start with
        | Option.some s => s
        | Option.none => pyFmtDate (addDays env.today 1)).take 10
      let end_ := (match dates.end_ with
        | Option.some s => s
        | Option.none => pyFmtDate (addDays env.today 3)).take 10
      let party := b.party.getD {}
      let pk : Int := party.kids.getD 0
      let bk : Int := b.kids.getD 0
      .ok ({ location := b.location.getD (str "San Jose, USA"),
             start := start, end_ := end_,
             guests := b.guests.getD 2,
             party_type := party.type_.getD (str "couple"),
             kids := if pk ≠ 0 then pk else if bk ≠ 0 then bk else 0,
             derived_from_free_text := false }, req.preferences)
    | Option.none =>
      if truthyStr req.free_text then
        match infer_context_from_free_text env.today req.free_text req.preferences with
        | Option.none =>
          .error (.http 400 (str "Unable to infer location from request. Please include city or booking details."))
        | Option.some derived =>
          if ¬truthyStr derived.location then
            .error (.http 400 (str "Unable to infer location from request. Please include city or booking details."))
          else
            let prefs2 : Prefs :=
              { req.preferences with
                interests :=
                  match req.preferences.interests with
                  | Option.some [] => Option.some []
                  | Option.some _ => Option.some derived.interests
                  | Option.none => Option.some derived.interests
                budget :=
                  match req.preferences.budget with
                  | Option.some b2 => Option.some b2
                  | Option.none => Option.some derived.budget
                dietary :=
                  match req.preferences.dietary with
                  | Option.some dv => Option.some dv
                  | Option.none => Option.some (.listVal derived.dietary)
                mobility :=
                  if derived.easy_mobility then Option.some (str "wheelchair")
                  else req.preferences.mobility }
            .ok ({ location := derived.location.getD [],
                   start := derived.dates_start, end_ := derived.dates_end,
                   guests := (derived.guests : Int),
                   party_type := derived.party_type,
                   kids := (derived.kids : Int),
                   derived_from_free_text := true }, prefs2)
      else
        .error (.http 400 (str "Either bookingId or booking object is required"))

/-- The response metadata block. -/
structure Meta where
  location : Str
  dates_start : Str
  dates_end : Str
  guests : Int
  party_type : Str
  party_kids : Int
  model_used : Str
  nluDerived : Bool
deriving DecidableEq

/-- The `plan` response body; `warnings` is present only when non-empty. -/
structure PlanResponse where
  dayPlans : List DayPlan
  activityCards : List ActivityCard
  itinerary : List ItinDay
  restaurants : List RestaurantRec
  restaurantRecommendations : List RestaurantRec
  packingChecklist : List ChecklistItem
  tips : List TavilyItem
  meta : Meta
  warnings : Option (List Str)
deriving DecidableEq

/-- The generation stage of `plan` (main.py lines 513-563): in generative
mode an empty `generate_itinerary` result raises HTTP 500
(`OLLAMA_EMPTY_RESPONSE`); in the model `generate_itinerary` is total, so
the source's `except Exception` rewrap to 500 `OLLAMA_GENERATION_ERROR` is
unreachable.  With Ollama disabled, the deterministic rule-based itinerary
is built instead. -/
def generationStage (env : Env) (days : List Str) (location : Str)
    (interests : List Str) : Except PlanError (List ItinDay × Str) :=
  if env.useOllama then
    let itinerary := generate_itinerary env.backend
    if itinerary.isEmpty then
      .error (.http 500 (str "OLLAMA_EMPTY_RESPONSE"))
    else .ok (itinerary, env.ollamaModel)
  else
    .ok (days.map (fun d =>
      { day := d
        morning := [str "Scenic walk in " ++ (splitOnChar ',' location).headD []]
        afternoon := [str "Visit " ++ (match interests with
                                       | i :: _ => i
                                       | [] => str "local attractions")]
        evening := [str "Dinner at a recommended spot"] }), str "rule-based")

/-- Line 471: the request's normalized dietary filters. -/
def requestedDietaryOf (prefs : Prefs) : List Str :=
  normalize_dietary_filters (prefs.dietary.getD .none) Option.none

/-- Line 472: `req.preferences.get('interests') or ['museums', 'parks']`. -/
def interestsOf (prefs : Prefs) : List Str :=
  match prefs.interests with
  | Option.some l => if l.isEmpty then [str "museums", str "parks"] else l
  | Option.none => [str "museums", str "parks"]

/-- Line 473: `(req.preferences.get('budget') or 'mid').lower()`. -/
def budgetOf (prefs : Prefs) : Str :=
  pyLower (match prefs.budget with
    | Option.some b => if b.isEmpty then str "mid" else b
    | Option.none => str "mid")

/-- Lines 474-478: the accessibility flag from the raw free text and the
normalized mobility preference. -/
def easyMobilityOf (free_text : Option Str) (prefs : Prefs) : Bool :=
  let mobility_pref := pyLower (prefs.mobility.getD [])
  let ftLower := pyLower (free_text.getD [])
  pyContains ftLower (str "wheelchair") || pyContains ftLower (str "stroller")
    || pyContains ftLower (str "no hike") || pyContains ftLower (str "no long hike")
    || pyContains mobility_pref (str "wheelchair")
    || pyContains mobility_pref (str "accessible")

/-- Line 479: `party_type.lower() == 'family' or kids > 0`. -/
def kidFriendlyOf (party_type : Str) (kids : Int) : Bool :=
  decide (pyLower party_type = str "family" ∨ 0 < kids)

/-- The `plan` route handler (main.py lines 424-681), after the
authentication dependency: resolve context, normalize preferences, expand
the date range (line 511 — an out-of-order range raises an uncaught
`ValueError` here), generate or rule-build the itinerary, run the two
best-effort enrichment queries, assemble builders' output, and attach
warnings for empty enrichment.  The developer debug-log writes and the
prompt string `prefs_str` (consumed only by the backend oracle) have no
modelled effect. -/
def plan (env : Env) (req : AgentRequest) : Except PlanError PlanResponse := do
  let (ctx, prefs) ← resolveContext env req
  let requested_dietary := requestedDietaryOf prefs
  let interests := interestsOf prefs
  let budget := budgetOf prefs
  let easy_mobility := easyMobilityOf req.free_text prefs
  let kid_friendly := kidFriendlyOf ctx.party_type ctx.kids
  let days ← match date_range ctx.start ctx.end_ with
    | .error e => .error (.uncaught e)
    | .ok l => .ok l
  let (itinerary, model_used) ← generationStage env days ctx.location interests
  let day_plans := build_day_plans days ctx.location interests budget easy_mobility kid_friendly
  let legacy_itinerary :=
    if itinerary.isEmpty then generate_legacy_itinerary day_plans else itinerary
  let restaurants := tavily_search env.tavilyRestaurants
  let tips := tavily_search env.tavilyTips
  let restaurant_recommendations := build_restaurant_recommendations
    ctx.location requested_dietary budget easy_mobility kid_friendly restaurants
  let packing_checklist ← match build_packing_checklist ctx.location ctx.start ctx.end_
      kid_friendly easy_mobility requested_dietary env.today with
    | .error e => .error (.uncaught e)
    | .ok l => .ok l
  let activity_cards := flatten_activity_cards day_plans
  let warnings :=
    (if restaurants.isEmpty then [str "Restaurant recommendations unavailable"] else [])
      ++ (if tips.isEmpty then [str "Local tips unavailable"] else [])
  .ok { dayPlans := day_plans
        activityCards := activity_cards
        itinerary := legacy_itinerary
        restaurants := restaurant_recommendations
        restaurantRecommendations := restaurant_recommendations
        packingChecklist := packing_checklist
        tips := tips
        meta := { location := ctx.location
                  dates_start := ctx.start
                  dates_end := ctx.end_
                  guests := ctx.guests
                  party_type := ctx.party_type
                  party_kids := ctx.kids
                  model_used := model_used
                  nluDerived := ctx.derived_from_free_text }
        warnings := if warnings.isEmpty then Option.none else Option.some warnings }

/-!
## Helper lemmas: characters, strips, deduplication
-/

theorem char_toNat_ofNat (n : Nat) (h : n < 55296) : (Char.ofNat n).toNat = n := by
  unfold Char.ofNat
  rw [dif_pos (Or.inl h : Nat.isValidChar n)]
  rfl

theorem lowerChar_lowerChar (c : Char) : lowerChar (lowerChar c) = lowerChar c := by
  unfold lowerChar
  split_ifs with h1 h2
  · exfalso
    unfold isUpperAlpha at h1 h2
    rw [decide_eq_true_eq] at h1 h2
    rw [char_toNat_ofNat (c.toNat + 32) (by omega)] at h2
    omega
  · rfl
  · rfl

theorem isPySpace_lowerChar (c : Char) : isPySpace (lowerChar c) = isPySpace c := by
  unfold lowerChar
  split_ifs with h1
  · unfold isUpperAlpha at h1
    rw [decide_eq_true_eq] at h1
    unfold isPySpace
    rw [char_toNat_ofNat (c.toNat + 32) (by omega)]
    rw [Bool.eq_iff_iff]
    simp only [Bool.or_eq_true, beq_iff_eq]
    omega
  · rfl

theorem pyLower_pyLower (s : Str) : pyLower (pyLower s) = pyLower s := by
  induction s with
  | nil => rfl
  | cons c cs ih =>
    simp only [pyLower, List.map_cons] at ih ⊢
    rw [lowerChar_lowerChar]
    exact congrArg _ (by simpa [pyLower] using ih)

theorem dropWhile_head_not (p : Char → Bool) :
    ∀ (l : Str) (h : Char), (l.dropWhile p).head? = Option.some h → p h = false := by
  intro l
  induction l with
  | nil => intro h hh; simp [List.dropWhile] at hh
  | cons c cs ih =>
    intro h hh
    by_cases hc : p c
    · rw [List.dropWhile_cons_of_pos hc] at hh
      exact ih h hh
    · rw [List.dropWhile_cons_of_neg hc] at hh
      simp at hh
      subst hh
      simpa using hc

theorem dropWhile_eq_self_of_head (p : Char → Bool) (l : Str)
    (h : ∀ c, l.head? = Option.some c → p c = false) : l.dropWhile p = l := by
  cases l with
  | nil => rfl
  | cons c cs =>
    have : p c = false := h c rfl
    simp [List.dropWhile, this]

theorem pyStrip_getLast_not (s : Str) :
    ∀ c, (pyStrip s).getLast? = Option.some c → isPySpace c = false := by
  intro c hc
  unfold pyStrip at hc
  rw [List.getLast?_reverse] at hc
  exact dropWhile_head_not isPySpace _ c hc

theorem pyStrip_head_not (s : Str) :
    ∀ c, (pyStrip s).head? = Option.some c → isPySpace c = false := by
  intro c hc
  unfold pyStrip at hc
  rw [List.head?_reverse] at hc
  -- the last survivor of the outer (reversed) dropWhile is the last element of
  -- the reversed inner result, i.e. the head of the inner dropWhile result
  set u := s.dropWhile isPySpace with hu
  rcases hsuf : u.reverse.dropWhile isPySpace with _ | ⟨a, as_⟩
  · rw [hsuf] at hc; simp at hc
  · have hne : u.reverse.dropWhile isPySpace ≠ [] := by rw [hsuf]; simp
    obtain ⟨t, htv⟩ := List.dropWhile_suffix (l := u.reverse) isPySpace
    have hlast : (u.reverse.dropWhile isPySpace).getLast? = u.reverse.getLast? := by
      conv_rhs => rw [← htv]
      exact (List.getLast?_append_of_ne_nil t hne).symm
    rw [hlast, List.getLast?_reverse] at hc
    exact dropWhile_head_not isPySpace s c (hu ▸ hc)

theorem pyStrip_eq_self (l : Str)
    (hh : ∀ c, l.head? = Option.some c → isPySpace c = false)
    (hl : ∀ c, l.getLast? = Option.some c → isPySpace c = false) :
    pyStrip l = l := by
  unfold pyStrip
  rw [dropWhile_eq_self_of_head isPySpace l hh]
  have : l.reverse.dropWhile isPySpace = l.reverse := by
    apply dropWhile_eq_self_of_head
    intro c hc
    rw [List.head?_reverse] at hc
    exact hl c hc
  rw [this, List.reverse_reverse]

theorem pyStrip_pyStrip (s : Str) : pyStrip (pyStrip s) = pyStrip s :=
  pyStrip_eq_self (pyStrip s) (pyStrip_head_not s) (pyStrip_getLast_not s)

theorem dropWhile_map_lower (l : Str) :
    (l.map lowerChar).dropWhile isPySpace = (l.dropWhile isPySpace).map lowerChar := by
  induction l with
  | nil => rfl
  | cons c cs ih =>
    by_cases hc : isPySpace c
    · rw [List.map_cons, List.dropWhile_cons_of_pos (by rw [isPySpace_lowerChar]; exact hc),
        List.dropWhile_cons_of_pos hc, ih]
    · rw [List.map_cons, List.dropWhile_cons_of_neg (by rw [isPySpace_lowerChar]; exact hc),
        List.dropWhile_cons_of_neg hc, List.map_cons]

theorem pyStrip_pyLower (s : Str) : pyStrip (pyLower s) = pyLower (pyStrip s) := by
  unfold pyStrip pyLower
  rw [dropWhile_map_lower, ← List.map_reverse, dropWhile_map_lower, ← List.map_reverse]

/-- Elements produced by the `dedupKeepFirst.go` walk avoid `seen`. -/
theorem dedup_go_not_seen (l seen : List Str) :
    ∀ x ∈ dedupKeepFirst.go seen l, x ∉ seen := by
  induction l generalizing seen with
  | nil => intro x hx; simp [dedupKeepFirst.go] at hx
  | cons a as_ ih =>
    intro x hx
    unfold dedupKeepFirst.go at hx
    by_cases ha : a ∈ seen
    · rw [if_pos ha] at hx
      exact ih seen x hx
    · rw [if_neg ha] at hx
      rcases List.mem_cons.mp hx with hx | hx
      · exact hx ▸ ha
      · intro hxs
        exact ih (a :: seen) x hx (List.mem_cons_of_mem a hxs)

/-- The `dedupKeepFirst.go` walk returns a duplicate-free list. -/
theorem dedup_go_nodup (l : List Str) : ∀ seen, (dedupKeepFirst.go seen l).Nodup := by
  induction l with
  | nil => intro seen; simp [dedupKeepFirst.go]
  | cons a as_ ih =>
    intro seen
    unfold dedupKeepFirst.go
    by_cases ha : a ∈ seen
    · rw [if_pos ha]; exact ih seen
    · rw [if_neg ha]
      refine List.nodup_cons.mpr ⟨?_, ih (a :: seen)⟩
      intro hmem
      exact dedup_go_not_seen as_ (a :: seen) a hmem (List.mem_cons_self a seen)

/-- `dedupKeepFirst.go` leaves a duplicate-free list disjoint from `seen`
unchanged. -/
theorem dedup_go_of_nodup (l : List Str) :
    ∀ seen, l.Nodup → (∀ x ∈ l, x ∉ seen) → dedupKeepFirst.go seen l = l := by
  induction l with
  | nil => intro seen _ _; rfl
  | cons a as_ ih =>
    intro seen hnd hdis
    unfold dedupKeepFirst.go
    rw [if_neg (hdis a (List.mem_cons_self a as_))]
    have hnd2 := List.nodup_cons.mp hnd
    refine congrArg (a :: ·) (ih (a :: seen) hnd2.2 ?_)
    intro x hx
    intro hmem
    rcases List.mem_cons.mp hmem with h | h
    · exact hnd2.1 (h ▸ hx)
    · exact hdis x (List.mem_cons_of_mem a hx) h

theorem dedupKeepFirst_idem (l : List Str) :
    dedupKeepFirst (dedupKeepFirst l) = dedupKeepFirst l := by
  unfold dedupKeepFirst
  exact dedup_go_of_nodup _ [] (dedup_go_nodup l []) (by simp)

/-- Members of the deduplicated list are members of the original. -/
theorem dedup_go_subset (l : List Str) :
    ∀ seen x, x ∈ dedupKeepFirst.go seen l → x ∈ l := by
  induction l with
  | nil => intro seen x hx; simp [dedupKeepFirst.go] at hx
  | cons a as_ ih =>
    intro seen x hx
    unfold dedupKeepFirst.go at hx
    by_cases ha : a ∈ seen
    · rw [if_pos ha] at hx
      exact List.mem_cons_of_mem a (ih seen x hx)
    · rw [if_neg ha] at hx
      rcases List.mem_cons.mp hx with hx | hx
      · exact hx ▸ List.mem_cons_self a as_
      · exact List.mem_cons_of_mem a (ih (a :: seen) x hx)

theorem dedupKeepFirst_subset (l : List Str) (x : Str)
    (hx : x ∈ dedupKeepFirst l) : x ∈ l :=
  dedup_go_subset l [] x hx

theorem normElem_produced (item p : Str) (h : normElem item = Option.some p) :
    normElem p = Option.some p := by
  simp only [normElem] at h
  split_ifs at h with h1 h2
  · have h3 := Option.some.inj h
    subst h3
    decide
  · have h3 := Option.some.inj h
    subst h3
    simp only [normElem]
    have hfix : pyLower (pyStrip (pyLower (pyStrip item))) = pyLower (pyStrip item) := by
      rw [pyStrip_pyLower, pyStrip_pyStrip, pyLower_pyLower]
    rw [hfix, if_neg h1, if_neg h2]

theorem filterMap_normElem_fix (l : List Str)
    (h : ∀ p ∈ l, normElem p = Option.some p) : l.filterMap normElem = l := by
  induction l with
  | nil => rfl
  | cons a as_ ih =>
    rw [List.filterMap_cons, h a (List.mem_cons_self a as_)]
    exact congrArg (a :: ·) (ih (fun p hp => h p (List.mem_cons_of_mem a hp)))

/-- C7: dietary normalization is idempotent — normalizing the output of any
normalization returns it unchanged — and the two spellings `"Gluten Free"`
and `"gluten-free"` together collapse to the single value `"gluten-free"`. -/
theorem claim_C7_normalize_dietary_idempotent :
    (∀ (pref_value : DietaryInput) (inferred : Option (List Str)),
       normalize_dietary_filters
         (.listVal (normalize_dietary_filters pref_value inferred)) Option.none
         = normalize_dietary_filters pref_value inferred)
    ∧ normalize_dietary_filters
        (.listVal [str "Gluten Free", str "gluten-free"]) Option.none
        = [str "gluten-free"] := by
  constructor
  · intro pv inf
    set inner := normalize_dietary_filters pv inf with hinner
    have hfixall : ∀ p ∈ inner, normElem p = Option.some p := by
      intro p hp
      rw [hinner] at hp
      unfold normalize_dietary_filters at hp
      have hp2 := dedupKeepFirst_subset _ p hp
      obtain ⟨a, _, ha⟩ := List.mem_filterMap.mp hp2
      exact normElem_produced a p ha
    unfold normalize_dietary_filters
    simp only [List.append_nil]
    rw [filterMap_normElem_fix inner hfixall]
    rw [hinner]
    unfold normalize_dietary_filters
    exact dedupKeepFirst_idem _
  · decide

/-!
## Claim C9: token verification
-/

/-- C9: token verification fails 503 without a configured secret, 401 for a
missing credential or an expired/invalid token, 403 when the claim set lacks
`'id'` or the role is not `'TRAVELER'`, and otherwise returns the decoded
claim set. -/
theorem claim_C9_token_verification (jwtSecret : Str) (credentials : Option Str)
    (decode : Str → DecodeResult) :
    (jwtSecret = [] →
       verify_jwt_token jwtSecret credentials decode
         = .error (.http 503 (str "Authentication system is not configured.")))
    ∧ (jwtSecret ≠ [] → credentials = Option.none →
       verify_jwt_token jwtSecret credentials decode
         = .error (.http 401 (str "Authorization header missing")))
    ∧ (∀ token, jwtSecret ≠ [] → credentials = Option.some token →
        (decode token = .expiredSignature →
          verify_jwt_token jwtSecret credentials decode
            = .error (.http 401 (str "Token has expired")))
        ∧ (∀ m, decode token = .invalidToken m →
            verify_jwt_token jwtSecret credentials decode
              = .error (.http 401 (str "Invalid token: " ++ m)))
        ∧ (∀ payload, decode token = .decoded payload →
            ((¬payload.hasId = true ∨ payload.role ≠ Option.some (str "TRAVELER")) →
              verify_jwt_token jwtSecret credentials decode
                = .error (.http 403 (str "Invalid token or role")))
            ∧ (payload.hasId = true → payload.role = Option.some (str "TRAVELER") →
               verify_jwt_token jwtSecret credentials decode = .ok payload))) := by
  refine ⟨?_, ?_, ?_⟩
  · intro h
    unfold verify_jwt_token
    rw [if_pos (by simp [h])]
  · intro h hc
    unfold verify_jwt_token
    rw [if_neg (by simpa using h), hc]
  · intro token h hc
    subst hc
    refine ⟨?_, ?_, ?_⟩
    · intro hd
      unfold verify_jwt_token
      rw [if_neg (by simpa using h)]
      dsimp only
      rw [hd]
    · intro m hd
      unfold verify_jwt_token
      rw [if_neg (by simpa using h)]
      dsimp only
      rw [hd]
    · intro payload hd
      constructor
      · intro hbad
        unfold verify_jwt_token
        rw [if_neg (by simpa using h)]
        dsimp only
        rw [hd]
        dsimp only
        rw [if_pos hbad]
      · intro hid hrole
        unfold verify_jwt_token
        rw [if_neg (by simpa using h)]
        dsimp only
        rw [hd]
        dsimp only
        rw [if_neg (show ¬(¬payload.hasId = true ∨ payload.role ≠ Option.some (str "TRAVELER")) by
          simp [hid, hrole])]

/-- Witness for C9 at concrete inputs: a well-formed traveler token passes. -/
theorem claim_C9_witness :
    ((str "secret" : Str) ≠ []) ∧
    verify_jwt_token (str "secret") (Option.some (str "tok"))
        (fun _ => .decoded ⟨true, Option.some (str "TRAVELER")⟩)
      = .ok ⟨true, Option.some (str "TRAVELER")⟩ :=
  ⟨by decide,
   (((claim_C9_token_verification (str "secret") (Option.some (str "tok"))
        (fun _ => .decoded ⟨true, Option.some (str "TRAVELER")⟩)).2.2
      (str "tok") (by decide) rfl).2.2
      ⟨true, Option.some (str "TRAVELER")⟩ rfl).2 rfl rfl⟩

/-!
## Claim C2: generative-mode failures are hard request failures
-/

theorem except_bind_error {α β : Type} (e : PlanError) (f : α → Except PlanError β) :
    (Except.error e >>= f : Except PlanError β) = Except.error e := rfl

theorem except_bind_ok {α β : Type} (a : α) (f : α → Except PlanError β) :
    (Except.ok a >>= f : Except PlanError β) = f a := rfl

/-- C2: with `USE_OLLAMA` enabled, an empty/unparseable/raising backend
result fails the request with HTTP 500 (`OLLAMA_EMPTY_RESPONSE`); a plan
that does succeed in generative mode always carries the backend's itinerary
and model name, never the rule-based one; the rule-based itinerary is built
only when `USE_OLLAMA` is disabled. -/
theorem claim_C2_generation_failure_policy :
    (∀ (env : Env) (days : List Str) (location : Str) (interests : List Str),
       env.useOllama = true → generate_itinerary env.backend = [] →
       generationStage env days location interests
         = .error (.http 500 (str "OLLAMA_EMPTY_RESPONSE")))
    ∧ (∀ (env : Env) (req : AgentRequest) (resp : PlanResponse),
       env.useOllama = true → generate_itinerary env.backend = [] →
       plan env req ≠ .ok resp)
    ∧ (∀ (env : Env) (req : AgentRequest) (resp : PlanResponse),
       env.useOllama = true → plan env req = .ok resp →
       resp.meta.model_used = env.ollamaModel
         ∧ resp.itinerary = generate_itinerary env.backend)
    ∧ (∀ (env : Env) (days : List Str) (location : Str) (interests : List Str),
       env.useOllama = false →
       generationStage env days location interests
         = .ok (days.map (fun d =>
             { day := d
               morning := [str "Scenic walk in " ++ (splitOnChar ',' location).headD []]
               afternoon := [str "Visit " ++ (match interests with
                                              | i :: _ => i
                                              | [] => str "local attractions")]
               evening := [str "Dinner at a recommended spot"] }), str "rule-based")) := by
  have hstage : ∀ (env : Env) (days : List Str) (location : Str) (interests : List Str),
      env.useOllama = true → generate_itinerary env.backend = [] →
      generationStage env days location interests
        = .error (.http 500 (str "OLLAMA_EMPTY_RESPONSE")) := by
    intro env days location interests ho hg
    unfold generationStage
    rw [ho, if_pos rfl, hg]
    rfl
  have hok : ∀ (env : Env) (days : List Str) (location : Str) (interests : List Str)
      (it : List ItinDay) (mu : Str),
      env.useOllama = true →
      generationStage env days location interests = .ok (it, mu) →
      mu = env.ollamaModel ∧ it = generate_itinerary env.backend ∧ it ≠ [] := by
    intro env days location interests it mu ho hs
    unfold generationStage at hs
    rw [ho, if_pos rfl] at hs
    by_cases hg : (generate_itinerary env.backend).isEmpty
    · rw [if_pos hg] at hs
      exact absurd hs (by simp)
    · rw [if_neg hg] at hs
      simp only [Except.ok.injEq, Prod.mk.injEq] at hs
      obtain ⟨hit, hmu⟩ := hs
      refine ⟨hmu.symm, hit.symm, ?_⟩
      intro hnil
      exact hg (by rw [hit, hnil]; rfl)
  refine ⟨hstage, ?_, ?_, ?_⟩
  · intro env req resp ho hg hok2
    unfold plan at hok2
    rcases hr : resolveContext env req with e | ⟨ctx, prefs⟩ <;> rw [hr] at hok2
    · rw [except_bind_error] at hok2
      exact absurd hok2 (by simp)
    · rw [except_bind_ok] at hok2
      (try dsimp only at hok2)
      rcases hd : date_range ctx.start ctx.end_ with e2 | days <;>
        rw [hd] at hok2 <;> (try dsimp only at hok2)
      · rw [except_bind_error] at hok2
        exact absurd hok2 (by simp)
      · rw [except_bind_ok] at hok2
        (try dsimp only at hok2)
        rw [hstage env days ctx.location (interestsOf prefs) ho hg] at hok2
        rw [except_bind_error] at hok2
        exact absurd hok2 (by simp)
  · intro env req resp ho hpl
    unfold plan at hpl
    rcases hr : resolveContext env req with e | ⟨ctx, prefs⟩ <;> rw [hr] at hpl
    · rw [except_bind_error] at hpl
      exact absurd hpl (by simp)
    · rw [except_bind_ok] at hpl
      (try dsimp only at hpl)
      rcases hd : date_range ctx.start ctx.end_ with e2 | days <;>
        rw [hd] at hpl <;> (try dsimp only at hpl)
      · rw [except_bind_error] at hpl
        exact absurd hpl (by simp)
      · rw [except_bind_ok] at hpl
        (try dsimp only at hpl)
        rcases hs : generationStage env days ctx.location (interestsOf prefs)
            with e3 | ⟨it, mu⟩ <;> rw [hs] at hpl <;> (try dsimp only at hpl)
        · rw [except_bind_error] at hpl
          exact absurd hpl (by simp)
        · rw [except_bind_ok] at hpl
          (try dsimp only at hpl)
          obtain ⟨hmu, hit, hne⟩ :=
            hok env days ctx.location (interestsOf prefs) it mu ho hs
          rcases hp : build_packing_checklist ctx.location ctx.start ctx.end_
              (kidFriendlyOf ctx.party_type ctx.kids)
              (easyMobilityOf req.free_text prefs)
              (requestedDietaryOf prefs) env.today with e4 | pc <;>
            rw [hp] at hpl <;> (try dsimp only at hpl)
          · rw [except_bind_error] at hpl
            exact absurd hpl (by simp)
          · rw [except_bind_ok] at hpl
            (try dsimp only at hpl)
            simp only [Except.ok.injEq] at hpl
            subst hpl
            refine ⟨hmu, ?_⟩
            dsimp only
            rw [if_neg (by simpa using hne)]
            exact hit
  · intro env days location interests ho
    unfold generationStage
    rw [ho]
    rfl

/-- Witness for C2 at concrete inputs: with Ollama enabled and an
unparseable backend result, the generation stage raises HTTP 500. -/
theorem claim_C2_witness :
    ({ useOllama := true, ollamaModel := str "m", lookup := fun _ => Option.none,
       backend := .returns Option.none, tavilyRestaurants := .errored,
       tavilyTips := .errored, today := ⟨2025, 1, 1⟩ } : Env).useOllama = true
    ∧ generationStage
        { useOllama := true, ollamaModel := str "m", lookup := fun _ => Option.none,
          backend := .returns Option.none, tavilyRestaurants := .errored,
          tavilyTips := .errored, today := ⟨2025, 1, 1⟩ }
        [str "2025-01-01"] (str "Paris") []
        = .error (.http 500 (str "OLLAMA_EMPTY_RESPONSE")) :=
  ⟨rfl,
   claim_C2_generation_failure_policy.1
     { useOllama := true, ollamaModel := str "m", lookup := fun _ => Option.none,
       backend := .returns Option.none, tavilyRestaurants := .errored,
       tavilyTips := .errored, today := ⟨2025, 1, 1⟩ }
     [str "2025-01-01"] (str "Paris") [] rfl rfl⟩

/-!
## Claim C3: context-resolution failure cases
-/

/-- On a truthy free text the extractor always returns a context dictionary
(the `{}` case arises only for falsy free text). -/
theorem infer_isSome_of_truthy (today : Date) (ft : Option Str) (base : Prefs)
    (h : truthyStr ft = true) :
    ∃ d, infer_context_from_free_text today ft base = Option.some d := by
  rcases ft with _ | s
  · simp [truthyStr] at h
  · simp only [truthyStr, Bool.not_eq_true'] at h
    unfold infer_context_from_free_text
    dsimp only
    rw [if_neg (by simp [h])]
    exact ⟨_, rfl⟩

/-- C3: context resolution fails exactly in three cases — no source at all
(HTTP 400), a truthy free text whose extracted location is falsy (HTTP 400),
and a truthy `bookingId` whose lookup yields no record (HTTP 404); every
other input resolves successfully. -/
theorem claim_C3_resolution_failure_cases (env : Env) (req : AgentRequest) :
    (truthyStr req.bookingId = false → req.booking = Option.none →
     truthyStr req.free_text = false →
     resolveContext env req
       = .error (.http 400 (str "Either bookingId or booking object is required")))
    ∧ (truthyStr req.bookingId = true →
       env.lookup (req.bookingId.getD []) = Option.none →
       resolveContext env req = .error (.http 404 (str "Booking not found")))
    ∧ (∀ d, truthyStr req.bookingId = false → req.booking = Option.none →
       truthyStr req.free_text = true →
       infer_context_from_free_text env.today req.free_text req.preferences
         = Option.some d →
       truthyStr d.location = false →
       resolveContext env req
         = .error (.http 400
             (str "Unable to infer location from request. Please include city or booking details.")))
    ∧ (∀ e, resolveContext env req = .error e →
       (truthyStr req.bookingId = true
          ∧ env.lookup (req.bookingId.getD []) = Option.none
          ∧ e = .http 404 (str "Booking not found"))
       ∨ (truthyStr req.bookingId = false ∧ req.booking = Option.none
          ∧ truthyStr req.free_text = false
          ∧ e = .http 400 (str "Either bookingId or booking object is required"))
       ∨ (truthyStr req.bookingId = false ∧ req.booking = Option.none
          ∧ truthyStr req.free_text = true
          ∧ (∃ d, infer_context_from_free_text env.today req.free_text req.preferences
                    = Option.some d ∧ truthyStr d.location = false)
          ∧ e = .http 400
              (str "Unable to infer location from request. Please include city or booking details."))) := by
  refine ⟨?_, ?_, ?_, ?_⟩
  · intro hb hbk hf
    unfold resolveContext
    rw [if_neg (by simp [hb]), hbk, if_neg (by simp [hf])]
  · intro hb hl
    unfold resolveContext
    rw [if_pos hb, hl]
  · intro d hb hbk hf hd hloc
    unfold resolveContext
    rw [if_neg (by simp [hb]), hbk, if_pos hf, hd]
    dsimp only
    rw [if_pos (by simp [hloc])]
  · intro e he
    unfold resolveContext at he
    by_cases hb : truthyStr req.bookingId = true
    · rw [if_pos hb] at he
      rcases hl : env.lookup (req.bookingId.getD []) with _ | ctx <;> rw [hl] at he
      · left
        exact ⟨hb, rfl, (Except.error.inj he).symm⟩
      · exact absurd he (by simp)
    · rw [if_neg hb] at he
      rcases hbk : req.booking with _ | b <;> rw [hbk] at he
      · by_cases hf : truthyStr req.free_text = true
        · rw [if_pos hf] at he
          obtain ⟨d, hd⟩ := infer_isSome_of_truthy env.today req.free_text req.preferences hf
          rw [hd] at he
          dsimp only at he
          by_cases hloc : truthyStr d.location = true
          · rw [if_neg (by simp [hloc])] at he
            exact absurd he (by simp)
          · rw [if_pos (by simpa using hloc)] at he
            right; right
            refine ⟨by simpa using hb, rfl, hf, ⟨d, hd, by simpa using hloc⟩, ?_⟩
            exact (Except.error.inj he).symm
        · rw [if_neg hf] at he
          right; left
          refine ⟨by simpa using hb, rfl, by simpa using hf, ?_⟩
          exact (Except.error.inj he).symm
      · exact absurd he (by simp)

/-- Witness for C3 at a concrete input: the empty request is rejected 400. -/
theorem claim_C3_witness :
    resolveContext
      { useOllama := false, ollamaModel := str "m", lookup := fun _ => Option.none,
        backend := .returns Option.none, tavilyRestaurants := .errored,
        tavilyTips := .errored, today := ⟨2025, 1, 1⟩ } {}
      = .error (.http 400 (str "Either bookingId or booking object is required")) :=
  (claim_C3_resolution_failure_cases
    { useOllama := false, ollamaModel := str "m", lookup := fun _ => Option.none,
      backend := .returns Option.none, tavilyRestaurants := .errored,
      tavilyTips := .errored, today := ⟨2025, 1, 1⟩ } {}).1 rfl rfl rfl

/-!
## Claim C5: day-plan generation
-/

/-- C5: one `DayPlan` per day; day `i` is themed by the interest at index
`i mod len(interests)` (with `['local culture']` substituted for an empty
list); each day has exactly the three cards morning, afternoon, evening in
that order; morning and afternoon cards last 120 minutes and evening cards
150. -/
theorem claim_C5_day_plans (days : List Str) (location : Str)
    (interests : List Str) (budget : Str) (accessible kid_friendly : Bool)
    (_hne : days ≠ []) :
    (build_day_plans days location interests budget accessible kid_friendly).length
      = days.length
    ∧ (∀ i, i < days.length →
        ((build_day_plans days location interests budget accessible kid_friendly).getD i
            ⟨[], [], [], []⟩).theme
          = pyTitle ((if interests.isEmpty then [str "local culture"] else interests).getD
              (i % (if interests.isEmpty then [str "local culture"] else interests).length) [])
        ∧ ((build_day_plans days location interests budget accessible kid_friendly).getD i
            ⟨[], [], [], []⟩).activities
          = [build_activity_card location
               ((if interests.isEmpty then [str "local culture"] else interests).getD
                 (i % (if interests.isEmpty then [str "local culture"] else interests).length) [])
               (str "morning") (price_tier_from_budget budget) accessible kid_friendly,
             build_activity_card location
               ((if interests.isEmpty then [str "local culture"] else interests).getD
                 (i % (if interests.isEmpty then [str "local culture"] else interests).length) [])
               (str "afternoon") (price_tier_from_budget budget) accessible kid_friendly,
             build_activity_card location
               ((if interests.isEmpty then [str "local culture"] else interests).getD
                 (i % (if interests.isEmpty then [str "local culture"] else interests).length) [])
               (str "evening") (price_tier_from_budget budget) accessible kid_friendly]
        ∧ ((build_day_plans days location interests budget accessible kid_friendly).getD i
            ⟨[], [], [], []⟩).activities.length = 3)
    ∧ (∀ interest tier,
        (build_activity_card location interest (str "morning") tier accessible kid_friendly).durationMinutes = 120
        ∧ (build_activity_card location interest (str "afternoon") tier accessible kid_friendly).durationMinutes = 120
        ∧ (build_activity_card location interest (str "evening") tier accessible kid_friendly).durationMinutes = 150) := by
  have hlen : (build_day_plans days location interests budget accessible kid_friendly).length
      = days.length := by
    unfold build_day_plans
    simp
  refine ⟨hlen, ?_, ?_⟩
  · intro i hi
    have hip : i < (build_day_plans days location interests budget accessible kid_friendly).length := by
      rw [hlen]; exact hi
    rw [List.getD_eq_getElem _ _ hip]
    unfold build_day_plans
    simp only [List.getElem_map, List.getElem_enum]
    exact ⟨trivial, trivial, rfl⟩
  · intro interest tier
    exact ⟨rfl, rfl, rfl⟩

/-- Witness for C5 at a concrete input: one day, empty interests. -/
theorem claim_C5_witness :
    ([str "2025-01-01"] : List Str) ≠ []
    ∧ (build_day_plans [str "2025-01-01"] (str "Paris") [] (str "mid")
        false false).length = 1 :=
  ⟨by decide,
   (claim_C5_day_plans [str "2025-01-01"] (str "Paris") [] (str "mid")
      false false (by decide)).1⟩

/-!
## Claim C4: best-effort enrichment
-/

theorem resolveContext_tavily (env : Env) (o1 o2 : TavilyOutcome) (req : AgentRequest) :
    resolveContext { env with tavilyRestaurants := o1, tavilyTips := o2 } req
      = resolveContext env req := rfl

theorem generationStage_tavily (env : Env) (o1 o2 : TavilyOutcome)
    (days : List Str) (location : Str) (interests : List Str) :
    generationStage { env with tavilyRestaurants := o1, tavilyTips := o2 }
        days location interests
      = generationStage env days location interests := rfl

theorem env_set_tavily_today (env : Env) (o1 o2 : TavilyOutcome) :
    ({ env with tavilyRestaurants := o1, tavilyTips := o2 } : Env).today
      = env.today := rfl

/-- C4: empty enrichment never fails a request — the response instead carries
one warning per empty query, and the restaurant list degrades to exactly one
static fallback entry named `"Plant-Based Kitchen"` when `"vegan"` is among
the requested dietary filters and `"Chef's Table"` otherwise; non-empty
enrichment produces recommendations reshaped from at most its first three
results; a request's success never depends on the enrichment outcomes. -/
theorem claim_C4_enrichment_degradation :
    (∀ (location : Str) (dietary : List Str) (budget : Str) (acc kid : Bool),
       build_restaurant_recommendations location dietary budget acc kid []
         = [{ name := if str "vegan" ∈ dietary then str "Plant-Based Kitchen" else chefsTable
              address := location ++ str " city center"
              priceTier := price_tier_from_budget budget
              dietaryOptions := if dietary.isEmpty then [str "general"] else dietary
              tags := [str "restaurant"] ++ (if dietary.isEmpty then [str "general"] else dietary)
              wheelchairFriendly := acc
              kidFriendly := kid
              sourceUrl := Option.none
              summary := str "Curated option that meets the requested dietary filters." }])
    ∧ (∀ (location : Str) (dietary : List Str) (budget : Str) (acc kid : Bool)
         (tv : List TavilyItem), tv ≠ [] →
       build_restaurant_recommendations location dietary budget acc kid tv
         = (tv.take 3).map (fun item =>
             { name := pyStrip ((splitOnChar '|' item.title).headD [])
               address := location
               priceTier := price_tier_from_budget budget
               dietaryOptions := if dietary.isEmpty then [str "general"] else dietary
               tags := [str "restaurant", str "local"]
                 ++ (if dietary.isEmpty then [str "general"] else dietary)
               wheelchairFriendly := acc
               kidFriendly := kid
               sourceUrl := Option.some item.url
               summary := item.snippet }))
    ∧ (∀ (env : Env) (req : AgentRequest) (ctx : TripContext) (prefs : Prefs)
         (resp : PlanResponse),
       resolveContext env req = .ok (ctx, prefs) →
       plan env req = .ok resp →
       resp.restaurantRecommendations
         = build_restaurant_recommendations ctx.location (requestedDietaryOf prefs)
             (budgetOf prefs) (easyMobilityOf req.free_text prefs)
             (kidFriendlyOf ctx.party_type ctx.kids)
             (tavily_search env.tavilyRestaurants)
       ∧ (tavily_search env.tavilyRestaurants = [] →
          tavily_search env.tavilyTips = [] →
          resp.warnings = Option.some [str "Restaurant recommendations unavailable",
                                       str "Local tips unavailable"]))
    ∧ (∀ (env : Env) (req : AgentRequest) (o1 o2 : TavilyOutcome),
       (plan { env with tavilyRestaurants := o1, tavilyTips := o2 } req).isOk
         = (plan env req).isOk) := by
  refine ⟨?_, ?_, ?_, ?_⟩
  · intro location dietary budget acc kid
    by_cases hd : dietary = []
    · subst hd
      rfl
    · unfold build_restaurant_recommendations
      dsimp only
      rw [if_pos (by rfl)]
      have h2 : (if dietary.isEmpty = true then [str "general"] else dietary) = dietary :=
        if_neg (by simpa using hd)
      rw [h2]
  · intro location dietary budget acc kid tv htv
    unfold build_restaurant_recommendations
    dsimp only
    rw [if_neg (show ¬((tv.take 3).map _).isEmpty = true by
      rcases tv with _ | ⟨a, as_⟩
      · exact absurd rfl htv
      · simp)]
  · intro env req ctx prefs resp hr hpl
    unfold plan at hpl
    rw [hr] at hpl
    rw [except_bind_ok] at hpl
    (try dsimp only at hpl)
    rcases hd : date_range ctx.start ctx.end_ with e2 | days <;>
      rw [hd] at hpl <;> (try dsimp only at hpl)
    · rw [except_bind_error] at hpl
      exact absurd hpl (by simp)
    · rw [except_bind_ok] at hpl
      (try dsimp only at hpl)
      rcases hs : generationStage env days ctx.location (interestsOf prefs)
          with e3 | ⟨it, mu⟩ <;> rw [hs] at hpl <;> (try dsimp only at hpl)
      · rw [except_bind_error] at hpl
        exact absurd hpl (by simp)
      · rw [except_bind_ok] at hpl
        (try dsimp only at hpl)
        rcases hp : build_packing_checklist ctx.location ctx.start ctx.end_
            (kidFriendlyOf ctx.party_type ctx.kids)
            (easyMobilityOf req.free_text prefs)
            (requestedDietaryOf prefs) env.today with e4 | pc <;>
          rw [hp] at hpl <;> (try dsimp only at hpl)
        · rw [except_bind_error] at hpl
          exact absurd hpl (by simp)
        · rw [except_bind_ok] at hpl
          (try dsimp only at hpl)
          simp only [Except.ok.injEq] at hpl
          subst hpl
          refine ⟨rfl, ?_⟩
          intro h1 h2
          dsimp only
          rw [h1, h2]
          rfl
  · intro env req o1 o2
    unfold plan
    rw [resolveContext_tavily]
    rcases hr : resolveContext env req with e | ⟨ctx, prefs⟩
    · rfl
    · rw [except_bind_ok, except_bind_ok]
      (try dsimp only)
      rcases hd : date_range ctx.start ctx.end_ with e2 | days <;> (try dsimp only)
      · rfl
      · rw [except_bind_ok, except_bind_ok]
        (try dsimp only)
        rw [generationStage_tavily]
        rcases hs : generationStage env days ctx.location (interestsOf prefs)
            with e3 | ⟨it, mu⟩ <;> (try dsimp only)
        · rfl
        · rw [except_bind_ok, except_bind_ok]
          (try dsimp only)
          rw [env_set_tavily_today]
          rcases hp : build_packing_checklist ctx.location ctx.start ctx.end_
              (kidFriendlyOf ctx.party_type ctx.kids)
              (easyMobilityOf req.free_text prefs)
              (requestedDietaryOf prefs) env.today with e4 | pc <;> (try dsimp only)
          · rfl
          · rfl

/-- Witness for C4 at a concrete input: one enrichment result is reshaped
into one recommendation. -/
theorem claim_C4_witness :
    (([⟨str "Le Bistro | Guide", str "u", str "s"⟩] : List TavilyItem) ≠ [])
    ∧ build_restaurant_recommendations (str "Paris") [str "vegan"] (str "mid")
        false false [⟨str "Le Bistro | Guide", str "u", str "s"⟩]
      = (([⟨str "Le Bistro | Guide", str "u", str "s"⟩] : List TavilyItem).take 3).map
          (fun item =>
            { name := pyStrip ((splitOnChar '|' item.title).headD [])
              address := str "Paris"
              priceTier := price_tier_from_budget (str "mid")
              dietaryOptions := if ([str "vegan"] : List Str).isEmpty
                                then [str "general"] else [str "vegan"]
              tags := [str "restaurant", str "local"]
                ++ (if ([str "vegan"] : List Str).isEmpty
                    then [str "general"] else [str "vegan"])
              wheelchairFriendly := false
              kidFriendly := false
              sourceUrl := Option.some item.url
              summary := item.snippet }) :=
  ⟨by decide,
   claim_C4_enrichment_degradation.2.1 (str "Paris") [str "vegan"] (str "mid")
     false false [⟨str "Le Bistro | Guide", str "u", str "s"⟩] (by decide)⟩

/-!
## Claim C6: free-text preference fold-back
-/

/-- Counterexample to C6 as stated: for the free text
`"Visit Paris, food and music, accessible"` with caller-supplied
`interests = ["museums"]` and `mobility = "none"`, resolution returns the
caller's interests list extended in place (the extractor appends to the
aliased list) and the mobility value overwritten with `"wheelchair"` —
caller-supplied values are not left unchanged. -/
theorem claim_C6_counterexample :
    Except.map (fun p => ((p.2 : Prefs).interests, p.2.mobility))
      (resolveContext
        { useOllama := false, ollamaModel := str "m", lookup := fun _ => Option.none,
          backend := .returns Option.none, tavilyRestaurants := .errored,
          tavilyTips := .errored, today := ⟨2025, 1, 1⟩ }
        { free_text := Option.some (str "Visit Paris, food and music, accessible"),
          preferences := { interests := Option.some [str "museums"],
                           budget := Option.some (str "high"),
                           dietary := Option.some (.listVal [str "kosher"]),
                           mobility := Option.some (str "none") } })
      = .ok (Option.some [str "museums", str "food", str "music"],
             Option.some (str "wheelchair"))
    ∧ ({ interests := Option.some [str "museums"],
         budget := Option.some (str "high"),
         dietary := Option.some (.listVal [str "kosher"]),
         mobility := Option.some (str "none") } : Prefs).interests
        ≠ Option.some [str "museums", str "food", str "music"]
    ∧ ({ interests := Option.some [str "museums"],
         budget := Option.some (str "high"),
         dietary := Option.some (.listVal [str "kosher"]),
         mobility := Option.some (str "none") } : Prefs).mobility
        ≠ Option.some (str "wheelchair") :=
  ⟨rfl, by decide, by decide⟩

/-- C6 amended: on the free-text path, caller-supplied `budget` and
`dietary` are preserved and derived values fill only absent keys; but
`interests`, when supplied non-empty, is extended in place with the text's
interest keywords (list aliasing in the extractor), and `mobility` is
overwritten with `"wheelchair"` whenever the text indicates accessibility
(a supplied empty interests list and, absent an accessibility cue, a
supplied mobility value are preserved). -/
theorem claim_C6_amended (env : Env) (req : AgentRequest) (ctx : TripContext)
    (prefs2 : Prefs) (d : Derived)
    (hb : truthyStr req.bookingId = false) (hbk : req.booking = Option.none)
    (hf : truthyStr req.free_text = true)
    (hd : infer_context_from_free_text env.today req.free_text req.preferences
            = Option.some d)
    (hok : resolveContext env req = .ok (ctx, prefs2)) :
    prefs2.budget = (match req.preferences.budget with
                     | Option.some b => Option.some b
                     | Option.none => Option.some d.budget)
    ∧ prefs2.dietary = (match req.preferences.dietary with
                        | Option.some v => Option.some v
                        | Option.none => Option.some (.listVal d.dietary))
    ∧ prefs2.interests = (match req.preferences.interests with
                          | Option.some [] => Option.some []
                          | Option.some _ => Option.some d.interests
                          | Option.none => Option.some d.interests)
    ∧ prefs2.mobility = (if d.easy_mobility then Option.some (str "wheelchair")
                         else req.preferences.mobility)
    ∧ prefs2.dates = req.preferences.dates := by
  unfold resolveContext at hok
  rw [if_neg (by simp [hb]), hbk, if_pos hf, hd] at hok
  dsimp only at hok
  by_cases hloc : truthyStr d.location = true
  · rw [if_neg (by simp [hloc])] at hok
    simp only [Except.ok.injEq, Prod.mk.injEq] at hok
    obtain ⟨-, hp⟩ := hok
    subst hp
    exact ⟨rfl, rfl, rfl, rfl, rfl⟩
  · rw [if_pos (by simpa using hloc)] at hok
    exact absurd hok (by simp)

/-- Witness for the amended C6 at a concrete input: with an accessibility
cue in the text, the resolved mobility preference is `"wheelchair"`. -/
theorem claim_C6_amended_witness :
    ({ interests := Option.some [str "museums", str "food", str "music"],
       budget := Option.some (str "high"),
       dietary := Option.some (.listVal [str "kosher"]),
       mobility := Option.some (str "wheelchair"),
       dates := Option.none } : Prefs).mobility = Option.some (str "wheelchair") :=
  (claim_C6_amended
    { useOllama := false, ollamaModel := str "m", lookup := fun _ => Option.none,
      backend := .returns Option.none, tavilyRestaurants := .errored,
      tavilyTips := .errored, today := ⟨2025, 1, 1⟩ }
    { free_text := Option.some (str "Visit Paris, food and music, accessible"),
      preferences := { interests := Option.some [str "museums"],
                       budget := Option.some (str "high"),
                       dietary := Option.some (.listVal [str "kosher"]),
                       mobility := Option.some (str "none") } }
    { location := str "Visit Paris", start := str "2025-01-04",
      end_ := str "2025-01-06", guests := 2, party_type := str "couple",
      kids := 0, derived_from_free_text := true }
    { interests := Option.some [str "museums", str "food", str "music"],
      budget := Option.some (str "high"),
      dietary := Option.some (.listVal [str "kosher"]),
      mobility := Option.some (str "wheelchair"),
      dates := Option.none }
    { location := Option.some (str "Visit Paris"),
      dates_start := str "2025-01-04", dates_end := str "2025-01-06",
      guests := 2, kids := 0, party_type := str "couple",
      budget := str "high",
      interests := [str "museums", str "food", str "music"],
      dietary := [], easy_mobility := true }
    rfl rfl rfl rfl rfl).2.2.2.1

/-!
## Claim C1: the concrete free-text example
-/

/-- C1: for the example free text with empty base preferences, the extractor
resolves a non-empty location containing `"Paris"`, `kids = 2`,
`party_type = "family"`, dietary including `"vegan"`, accessibility `true`,
and a start date of the current date plus 7 days (for every current date). -/
theorem claim_C1_free_text_extraction (today : Date) :
    infer_context_from_free_text today
        (Option.some (str "Plan a family trip to Paris next week for 5 days with 2 kids, vegan, wheelchair accessible"))
        {}
      = Option.some
          { location := Option.some
              (str "Plan a family trip to Paris next week for 5 days with 2 kids")
            dates_start := pyFmtDate (addDays today 7)
            dates_end := pyFmtDate (addDays (addDays today 7) 6)
            guests := 4
            kids := 2
            party_type := str "family"
            budget := str "mid"
            interests := []
            dietary := [str "vegan"]
            easy_mobility := true }
    ∧ pyContains (str "Plan a family trip to Paris next week for 5 days with 2 kids")
        (str "Paris") = true
    ∧ (str "Plan a family trip to Paris next week for 5 days with 2 kids" : Str) ≠ [] := by
  refine ⟨?_, by decide, by decide⟩
  unfold infer_context_from_free_text
  dsimp only
  rw [if_neg (by decide)]
  rw [show pyStrip (str "Plan a family trip to Paris next week for 5 days with 2 kids, vegan, wheelchair accessible")
        = str "Plan a family trip to Paris next week for 5 days with 2 kids, vegan, wheelchair accessible" from by decide]
  rw [show pyLower (str "Plan a family trip to Paris next week for 5 days with 2 kids, vegan, wheelchair accessible")
        = str "plan a family trip to paris next week for 5 days with 2 kids, vegan, wheelchair accessible" from by decide]
  rw [show inferLocation (str "Plan a family trip to Paris next week for 5 days with 2 kids, vegan, wheelchair accessible")
        = Option.some (str "Plan a family trip to Paris next week for 5 days with 2 kids") from by decide]
  rw [show inferStartDate today (str "plan a family trip to paris next week for 5 days with 2 kids, vegan, wheelchair accessible")
        = addDays today 7 from by
      unfold inferStartDate
      rw [if_pos (by decide)]]
  rw [show inferDuration (str "plan a family trip to paris next week for 5 days with 2 kids, vegan, wheelchair accessible")
        = 7 from by decide]
  rw [show inferKids (str "plan a family trip to paris next week for 5 days with 2 kids, vegan, wheelchair accessible")
        = 2 from by decide]
  rw [show inferPartyType 2 (str "plan a family trip to paris next week for 5 days with 2 kids, vegan, wheelchair accessible")
        = str "family" from by decide]
  rw [show extend_interests [] (str "plan a family trip to paris next week for 5 days with 2 kids, vegan, wheelchair accessible")
        = [] from by decide]
  rw [show inferBudgetFromText (str "plan a family trip to paris next week for 5 days with 2 kids, vegan, wheelchair accessible")
        = str "mid" from by decide]
  rw [show inferDietaryFromText (str "plan a family trip to paris next week for 5 days with 2 kids, vegan, wheelchair accessible")
        = [str "vegan"] from by decide]
  rw [show inferMobilityFromText (str "plan a family trip to paris next week for 5 days with 2 kids, vegan, wheelchair accessible")
        = true from by decide]

/-!
## Calendar lemmas
-/

theorem isLeapYear_iff (y : Nat) :
    isLeapYear y = true ↔ ((y % 4 = 0 ∧ y % 100 ≠ 0) ∨ y % 400 = 0) := by
  unfold isLeapYear
  simp [Bool.or_eq_true, Bool.and_eq_true, beq_iff_eq]

theorem leaps_succ (n : Nat) :
    leaps (n + 1) = leaps n + (if isLeapYear (n + 1) then 1 else 0) := by
  unfold leaps
  rw [Nat.succ_div n 4, Nat.succ_div n 100, Nat.succ_div n 400]
  by_cases hl : isLeapYear (n + 1) = true
  · rw [if_pos hl]
    have hp := (isLeapYear_iff (n + 1)).mp hl
    split_ifs with a b c <;> omega
  · rw [if_neg hl]
    have hp : ¬(((n + 1) % 4 = 0 ∧ (n + 1) % 100 ≠ 0) ∨ (n + 1) % 400 = 0) :=
      fun h => hl ((isLeapYear_iff (n + 1)).mpr h)
    split_ifs with a b c <;> omega

theorem daysInMonth_pos (y m : Nat) : 1 ≤ daysInMonth y m := by
  unfold daysInMonth
  split <;> first | omega | (split <;> omega)

theorem daysBeforeMonth_succ (y m : Nat) (h1 : 1 ≤ m) (h2 : m ≤ 11) :
    daysBeforeMonth y (m + 1) = daysBeforeMonth y m + daysInMonth y m := by
  interval_cases m <;>
    simp only [daysBeforeMonth, daysInMonth] <;> split_ifs <;> omega

theorem dayOfYear_le (d : Date) (hv : dateValid d) :
    dayOfYear d ≤ 365 + (if isLeapYear d.year then 1 else 0) := by
  obtain ⟨y, m, day⟩ := d
  obtain ⟨-, h2, h3, -, h5⟩ := hv
  simp only at h2 h3 h5 ⊢
  unfold dayOfYear
  simp only
  have : daysBeforeMonth y m + daysInMonth y m ≤ 365 + (if isLeapYear y then 1 else 0) := by
    interval_cases m <;>
      simp only [daysBeforeMonth, daysInMonth] <;> split_ifs <;> omega
  omega

theorem dayOfYear_pos (d : Date) (hv : dateValid d) : 1 ≤ dayOfYear d := by
  obtain ⟨-, -, -, h4, -⟩ := hv
  unfold dayOfYear
  omega

theorem toOrd_nextDay (d : Date) (hv : dateValid d) :
    toOrd (nextDay d) = toOrd d + 1 := by
  obtain ⟨y, m, day⟩ := d
  obtain ⟨h1, h2, h3, h4, h5⟩ := hv
  simp only at h1 h2 h3 h4 h5
  unfold nextDay
  simp only
  by_cases hb1 : day < daysInMonth y m
  · rw [if_pos hb1]
    unfold toOrd dayOfYear
    simp only
    omega
  · rw [if_neg hb1]
    have hday : day = daysInMonth y m := by omega
    by_cases hb2 : m < 12
    · rw [if_pos hb2]
      unfold toOrd dayOfYear
      simp only
      rw [daysBeforeMonth_succ y m h2 (by omega)]
      omega
    · rw [if_neg hb2]
      have hm : m = 12 := by omega
      subst hm
      have hday31 : day = 31 := by
        simpa [daysInMonth] using hday
      subst hday31
      have hy : y - 1 + 1 = y := by omega
      have hls := leaps_succ (y - 1)
      rw [hy] at hls
      unfold toOrd dayOfYear daysBeforeMonth
      dsimp only
      simp only [Nat.add_sub_cancel]
      split_ifs at hls ⊢ <;> omega

theorem nextDay_valid (d : Date) (hv : dateValid d) : dateValid (nextDay d) := by
  obtain ⟨y, m, day⟩ := d
  obtain ⟨h1, h2, h3, h4, h5⟩ := hv
  simp only at h1 h2 h3 h4 h5
  unfold nextDay
  simp only
  by_cases hb1 : day < daysInMonth y m
  · rw [if_pos hb1]
    refine ⟨h1, h2, h3, ?_, ?_⟩ <;> dsimp only [dateValid] <;> omega
  · rw [if_neg hb1]
    by_cases hb2 : m < 12
    · rw [if_pos hb2]
      refine ⟨h1, ?_, ?_, ?_, ?_⟩
      · dsimp only; omega
      · dsimp only; omega
      · dsimp only; omega
      · exact daysInMonth_pos y (m + 1)
    · rw [if_neg hb2]
      refine ⟨?_, ?_, ?_, ?_, ?_⟩
      · dsimp only; omega
      · dsimp only; omega
      · dsimp only; omega
      · dsimp only; omega
      · exact daysInMonth_pos (y + 1) 1

theorem base_succ (y : Nat) (hy : 1 ≤ y) :
    365 * y + leaps y
      = 365 * (y - 1) + leaps (y - 1) + (365 + if isLeapYear y then 1 else 0) := by
  have h := leaps_succ (y - 1)
  have hy2 : y - 1 + 1 = y := by omega
  rw [hy2] at h
  omega

theorem base_year_bound (y1 : Nat) (h1 : 1 ≤ y1) :
    ∀ y2, y1 < y2 →
    365 * (y1 - 1) + leaps (y1 - 1) + (365 + (if isLeapYear y1 then 1 else 0))
      ≤ 365 * (y2 - 1) + leaps (y2 - 1) := by
  intro y2
  induction y2 with
  | zero => omega
  | succ k ih =>
    intro hk
    rcases Nat.lt_or_ge y1 k with h | h
    · have hbs := base_succ k (by omega)
      have := ih h
      simp only [Nat.add_sub_cancel]
      omega
    · have hy1k : y1 = k := by omega
      subst hy1k
      have hbs1 := base_succ y1 h1
      simp only [Nat.add_sub_cancel]
      omega

theorem dbm_le_of_le (y : Nat) (m : Nat) (h1 : 1 ≤ m) :
    ∀ m2, m ≤ m2 → m2 ≤ 12 → daysBeforeMonth y m ≤ daysBeforeMonth y m2 := by
  intro m2
  induction m2 with
  | zero => omega
  | succ k ih =>
    intro hm hk
    rcases Nat.lt_or_ge m (k + 1) with h | h
    · have hs := daysBeforeMonth_succ y k (by omega) (by omega)
      have hp := daysInMonth_pos y k
      have := ih (by omega) (by omega)
      omega
    · have : m = k + 1 := by omega
      subst this
      omega

theorem toOrd_lt_of_dateLt (a b : Date) (hva : dateValid a) (hvb : dateValid b)
    (h : dateLt a b = true) : toOrd a < toOrd b := by
  obtain ⟨y1, m1, d1⟩ := a
  obtain ⟨y2, m2, d2⟩ := b
  obtain ⟨hv1, hv2, hv3, hv4, hv5⟩ := hva
  obtain ⟨hw1, hw2, hw3, hw4, hw5⟩ := hvb
  simp only at hv1 hv2 hv3 hv4 hv5 hw1 hw2 hw3 hw4 hw5
  rw [dateLt, decide_eq_true_eq] at h
  simp only at h
  unfold toOrd dayOfYear
  simp only
  rcases h with hy | ⟨hye, hm | ⟨hme, hd⟩⟩
  · have hb := base_year_bound y1 hv1 y2 hy
    have hd1 : daysBeforeMonth y1 m1 + d1
        ≤ 365 + (if isLeapYear y1 then 1 else 0) := by
      have := dayOfYear_le ⟨y1, m1, d1⟩ ⟨hv1, hv2, hv3, hv4, hv5⟩
      simpa [dayOfYear] using this
    have hd2 : 1 ≤ daysBeforeMonth y2 m2 + d2 := by omega
    omega
  · subst hye
    have hs := daysBeforeMonth_succ y1 m1 hv2 (by omega)
    have hmono := dbm_le_of_le y1 (m1 + 1) (by omega) m2 (by omega) hw3
    omega
  · subst hye
    subst hme
    omega

theorem dateLe_or (a b : Date) (h : dateLe a b = true) :
    a = b ∨ dateLt a b = true := by
  obtain ⟨y1, m1, d1⟩ := a
  obtain ⟨y2, m2, d2⟩ := b
  rw [dateLe, decide_eq_true_eq] at h
  rw [dateLt, decide_eq_true_eq]
  simp only at h ⊢
  by_cases he : y1 = y2 ∧ m1 = m2 ∧ d1 = d2
  · left
    obtain ⟨e1, e2, e3⟩ := he
    subst e1; subst e2; subst e3
    rfl
  · right
    omega

theorem dateLt_of_not_le (a b : Date) (h : ¬dateLe a b = true) :
    dateLt b a = true := by
  obtain ⟨y1, m1, d1⟩ := a
  obtain ⟨y2, m2, d2⟩ := b
  rw [dateLe, decide_eq_true_eq] at h
  rw [dateLt, decide_eq_true_eq]
  simp only at h ⊢
  omega

theorem toOrd_le_of_dateLe (a b : Date) (hva : dateValid a) (hvb : dateValid b)
    (h : dateLe a b = true) : toOrd a ≤ toOrd b := by
  rcases dateLe_or a b h with he | hlt
  · subst he; omega
  · exact Nat.le_of_lt (toOrd_lt_of_dateLt a b hva hvb hlt)

theorem dateLe_of_toOrd_le (a b : Date) (hva : dateValid a) (hvb : dateValid b)
    (h : toOrd a ≤ toOrd b) : dateLe a b = true := by
  by_contra hc
  have hlt := dateLt_of_not_le a b hc
  have := toOrd_lt_of_dateLt b a hvb hva hlt
  omega

theorem toOrd_inj (a b : Date) (hva : dateValid a) (hvb : dateValid b)
    (h : toOrd a = toOrd b) : a = b := by
  by_cases hab : dateLe a b = true
  · rcases dateLe_or a b hab with he | hlt
    · exact he
    · have := toOrd_lt_of_dateLt a b hva hvb hlt
      omega
  · have hlt := dateLt_of_not_le a b hab
    have := toOrd_lt_of_dateLt b a hvb hva hlt
    omega

theorem dateLe_year (a b : Date) (h : dateLe a b = true) : a.year ≤ b.year := by
  obtain ⟨y1, m1, d1⟩ := a
  obtain ⟨y2, m2, d2⟩ := b
  rw [dateLe, decide_eq_true_eq] at h
  simp only at h ⊢
  omega

theorem nextDay_year_le (d : Date) (hv : dateValid d) (hy : d.year ≤ 9999)
    (hne : d ≠ ⟨9999, 12, 31⟩) : ¬9999 < (nextDay d).year := by
  obtain ⟨y, m, day⟩ := d
  obtain ⟨h1, h2, h3, h4, h5⟩ := hv
  simp only at h1 h2 h3 h4 h5 hy
  unfold nextDay
  simp only
  by_cases hb1 : day < daysInMonth y m
  · rw [if_pos hb1]; simpa using hy
  · rw [if_neg hb1]
    by_cases hb2 : m < 12
    · rw [if_pos hb2]; simpa using hy
    · rw [if_neg hb2]
      simp only
      have hm : m = 12 := by omega
      subst hm
      have hday : day = 31 := by
        have : daysInMonth y 12 = 31 := by simp [daysInMonth]
        omega
      subst hday
      intro hcon
      exact hne (by
        have : y = 9999 := by omega
        subst this
        rfl)

theorem addDays_nextDay (d : Date) (k : Nat) :
    addDays (nextDay d) k = addDays d (k + 1) := by
  induction k with
  | zero => rfl
  | succ n ih => simp only [addDays, ih]

theorem drLoop_stop (f : Nat) (d d1 : Date) (h : dateLe d d1 = false) :
    drLoop f d d1 = .ok [] := by
  cases f with
  | zero => rfl
  | succ g =>
    unfold drLoop
    rw [if_neg (by simp [h])]

theorem daysInMonth_le31 (y m : Nat) : daysInMonth y m ≤ 31 := by
  unfold daysInMonth
  split <;> first | (split <;> omega) | omega

theorem dateValid_max : dateValid ⟨9999, 12, 31⟩ := by decide

theorem dateLe_max (e : Date) (hv : dateValid e) (hy : e.year ≤ 9999) :
    dateLe e ⟨9999, 12, 31⟩ = true := by
  obtain ⟨y, m, day⟩ := e
  obtain ⟨h1, h2, h3, h4, h5⟩ := hv
  simp only at h1 h2 h3 h4 h5 hy
  rw [dateLe, decide_eq_true_eq]
  simp only
  have hdim := daysInMonth_le31 y m
  omega

theorem drLoop_spec (n : Nat) :
    ∀ (f : Nat) (d d1 : Date), dateValid d → dateValid d1 →
    toOrd d1 = toOrd d + n → n < f → d1.year ≤ 9999 →
    d1 ≠ ⟨9999, 12, 31⟩ →
    drLoop f d d1
      = .ok ((List.range (n + 1)).map (fun k => pyFmtDate (addDays d k))) := by
  induction n with
  | zero =>
    intro f d d1 hvd hvd1 hord hf hy hne
    have hdd1 : d = d1 := toOrd_inj d d1 hvd hvd1 (by omega)
    subst hdd1
    obtain ⟨g, hg⟩ : ∃ g, f = g + 1 := ⟨f - 1, by omega⟩
    subst hg
    unfold drLoop
    rw [if_pos (dateLe_of_toOrd_le d d hvd hvd (le_refl _))]
    rw [if_neg (nextDay_year_le d hvd hy hne)]
    have hstopc : dateLe (nextDay d) d = false := by
      by_contra hc
      rw [Bool.not_eq_false] at hc
      have hle2 := toOrd_le_of_dateLe (nextDay d) d (nextDay_valid d hvd) hvd hc
      have hnd := toOrd_nextDay d hvd
      omega
    rw [drLoop_stop g (nextDay d) d hstopc]
    rfl
  | succ k ih =>
    intro f d d1 hvd hvd1 hord hf hy hne
    obtain ⟨g, hg⟩ : ∃ g, f = g + 1 := ⟨f - 1, by omega⟩
    subst hg
    have hle : dateLe d d1 = true :=
      dateLe_of_toOrd_le d d1 hvd hvd1 (by omega)
    have hdy : d.year ≤ 9999 := le_trans (dateLe_year d d1 hle) hy
    have hdne : d ≠ ⟨9999, 12, 31⟩ := by
      intro hc
      subst hc
      have hle2 := toOrd_le_of_dateLe d1 ⟨9999, 12, 31⟩ hvd1 dateValid_max
        (dateLe_max d1 hvd1 hy)
      omega
    unfold drLoop
    rw [if_pos hle]
    rw [if_neg (nextDay_year_le d hvd hdy hdne)]
    have hord2 : toOrd d1 = toOrd (nextDay d) + k := by
      rw [toOrd_nextDay d hvd]
      omega
    rw [ih g (nextDay d) d1 (nextDay_valid d hvd) hvd1 hord2 (by omega) hy hne]
    dsimp only
    congr 1
    conv_rhs => rw [List.range_succ_eq_map, List.map_cons, List.map_map]
    congr 1
    refine (List.map_congr_left ?_).symm
    intro j _
    simp only [Function.comp]
    rw [addDays_nextDay]

/-!
## Parsing and formatting lemmas
-/

theorem parse_valid (s : Str) (d : Date)
    (h : parseIsoDate s = Option.some d) : dateValid d := by
  unfold parseIsoDate at h
  split at h
  · dsimp only at h
    split_ifs at h with h1 h2
    exact (Option.some.inj h) ▸ h2
  · exact absurd h (by simp)

theorem digitVal_le9 (c : Char) (h : isAsciiDigit c = true) :
    c.toNat - '0'.toNat ≤ 9 := by
  unfold isAsciiDigit at h
  rw [decide_eq_true_eq] at h
  have : '0'.toNat = 48 := rfl
  omega

theorem parse_year (s : Str) (d : Date)
    (h : parseIsoDate s = Option.some d) : d.year ≤ 9999 := by
  unfold parseIsoDate at h
  split at h
  case _ a b c d4 h1 e f h2 g hh =>
    dsimp only at h
    split_ifs at h with hc1 hc2
    · have hsub := Option.some.inj h
      subst hsub
      simp only [Bool.and_eq_true, isAsciiDigit, decide_eq_true_eq] at hc1
      have h0 : Char.toNat '0' = 48 := rfl
      simp only [natOfDigits, List.foldl]
      omega
  · exact absurd h (by simp)

theorem digitChar_digit (k : Nat) : isAsciiDigit (digitChar k) = true := by
  unfold digitChar
  split <;> decide

theorem natDigitsAux_digits (fuel : Nat) :
    ∀ n c, c ∈ natDigitsAux fuel n → isAsciiDigit c = true := by
  induction fuel with
  | zero => intro n c hc; simp [natDigitsAux] at hc
  | succ g ih =>
    intro n c hc
    unfold natDigitsAux at hc
    by_cases hsm : n < 10
    · rw [if_pos hsm] at hc
      simp at hc
      subst hc
      exact digitChar_digit n
    · rw [if_neg hsm] at hc
      rcases List.mem_append.mp hc with h | h
      · exact ih (n / 10) c h
      · simp at h
        subst h
        exact digitChar_digit (n % 10)

theorem natDigitsAux_len (fuel : Nat) :
    ∀ n w, 1 ≤ w → w ≤ fuel → n < 10 ^ w →
    (natDigitsAux fuel n).length ≤ w ∧ 1 ≤ (natDigitsAux fuel n).length := by
  induction fuel with
  | zero => intro n w h1 h2 _; omega
  | succ g ih =>
    intro n w h1 h2 hn
    unfold natDigitsAux
    by_cases hsm : n < 10
    · rw [if_pos hsm]
      simp only [List.length_singleton]
      omega
    · rw [if_neg hsm]
      have hw2 : 2 ≤ w := by
        by_contra hc
        have hw1 : w = 1 := by omega
        subst hw1
        rw [pow_one] at hn
        omega
      have hdiv : n / 10 < 10 ^ (w - 1) := by
        have h10 : 10 ^ w = 10 ^ (w - 1) * 10 := by
          conv_lhs => rw [show w = (w - 1) + 1 from by omega]
          rw [pow_succ]
        rw [Nat.div_lt_iff_lt_mul (by norm_num)]
        omega
      obtain ⟨ha, hb⟩ := ih (n / 10) (w - 1) (by omega) (by omega) hdiv
      rw [List.length_append, List.length_singleton]
      omega

theorem natDigits_len4 (n : Nat) (h : n ≤ 9999) :
    (natDigits n).length ≤ 4 ∧ 1 ≤ (natDigits n).length := by
  unfold natDigits
  by_cases h3 : n < 10
  · unfold natDigitsAux
    rw [if_pos h3]
    simp
  · exact natDigitsAux_len (n + 1) n 4 (by omega) (by omega)
      (by norm_num; omega)

theorem natDigits_len2 (n : Nat) (h : n ≤ 99) :
    (natDigits n).length ≤ 2 ∧ 1 ≤ (natDigits n).length := by
  unfold natDigits
  by_cases h3 : n < 10
  · unfold natDigitsAux
    rw [if_pos h3]
    simp
  · exact natDigitsAux_len (n + 1) n 2 (by omega) (by omega)
      (by norm_num; omega)

theorem padLeft_digits (w : Nat) (s : Str)
    (hs : ∀ c ∈ s, isAsciiDigit c = true) :
    ∀ c ∈ padLeft w s, isAsciiDigit c = true := by
  intro c hc
  unfold padLeft at hc
  rcases List.mem_append.mp hc with h | h
  · have := List.eq_of_mem_replicate h
    subst this
    decide
  · exact hs c h

theorem padLeft_len (w : Nat) (s : Str) (h : s.length ≤ w) :
    (padLeft w s).length = w := by
  unfold padLeft
  rw [List.length_append, List.length_replicate]
  omega

theorem list_len_four {α : Type} (l : List α) (h : l.length = 4) :
    ∃ a b c d, l = [a, b, c, d] := by
  rcases l with _ | ⟨a, _ | ⟨b, _ | ⟨c, _ | ⟨d, _ | ⟨e, t⟩⟩⟩⟩⟩ <;> simp_all

theorem list_len_two {α : Type} (l : List α) (h : l.length = 2) :
    ∃ a b, l = [a, b] := by
  rcases l with _ | ⟨a, _ | ⟨b, _ | ⟨c, t⟩⟩⟩ <;> simp_all

theorem isYmdStr_fmt (dt : Date) (hy : dt.year ≤ 9999) (hm : dt.month ≤ 99)
    (hd : dt.day ≤ 99) : isYmdStr (pyFmtDate dt) = true := by
  obtain ⟨hy4, hy1⟩ := natDigits_len4 dt.year hy
  obtain ⟨hm2, hm1⟩ := natDigits_len2 dt.month hm
  obtain ⟨hd2, hd1⟩ := natDigits_len2 dt.day hd
  obtain ⟨a, b, c, d, hab⟩ :=
    list_len_four (padLeft 4 (natDigits dt.year)) (padLeft_len 4 _ hy4)
  obtain ⟨e, f, hef⟩ :=
    list_len_two (padLeft 2 (natDigits dt.month)) (padLeft_len 2 _ hm2)
  obtain ⟨g, h, hgh⟩ :=
    list_len_two (padLeft 2 (natDigits dt.day)) (padLeft_len 2 _ hd2)
  have hdy := padLeft_digits 4 (natDigits dt.year) (natDigitsAux_digits _ _)
  have hdm := padLeft_digits 2 (natDigits dt.month) (natDigitsAux_digits _ _)
  have hdd := padLeft_digits 2 (natDigits dt.day) (natDigitsAux_digits _ _)
  rw [hab] at hdy
  rw [hef] at hdm
  rw [hgh] at hdd
  unfold pyFmtDate
  rw [hab, hef, hgh]
  show isYmdStr [a, b, c, d, '-', e, f, '-', g, h] = true
  have pa := hdy a (by simp)
  have pb := hdy b (by simp)
  have pc := hdy c (by simp)
  have pd := hdy d (by simp)
  have pe := hdm e (by simp)
  have pf := hdm f (by simp)
  have pg := hdd g (by simp)
  have ph := hdd h (by simp)
  unfold isYmdStr
  simp [pa, pb, pc, pd, pe, pf, pg, ph]

theorem not_dateLt_of_le (a b : Date) (h : dateLe a b = true) :
    ¬dateLt b a = true := by
  obtain ⟨y1, m1, d1⟩ := a
  obtain ⟨y2, m2, d2⟩ := b
  rw [dateLe, decide_eq_true_eq] at h
  rw [dateLt, decide_eq_true_eq]
  simp only at h ⊢
  omega

theorem date_range_ok (start end_ : Str) (d0 d1 : Date)
    (hs : parseIsoDate start = Option.some d0)
    (he : parseIsoDate end_ = Option.some d1)
    (hle : dateLe d0 d1 = true)
    (hne : d1 ≠ ⟨9999, 12, 31⟩) :
    date_range start end_
      = .ok ((List.range (toOrd d1 - toOrd d0 + 1)).map
          (fun k => pyFmtDate (addDays d0 k))) := by
  have hv0 := parse_valid start d0 hs
  have hv1 := parse_valid end_ d1 he
  have hy1 := parse_year end_ d1 he
  have hord := toOrd_le_of_dateLe d0 d1 hv0 hv1 hle
  unfold date_range
  rw [hs, he]
  dsimp only
  rw [if_neg (by simpa using not_dateLt_of_le d0 d1 hle)]
  have hfuel : toOrd d1 + 1 - toOrd d0 = (toOrd d1 - toOrd d0) + 1 := by omega
  rw [hfuel]
  exact drLoop_spec (toOrd d1 - toOrd d0) _ d0 d1 hv0 hv1 (by omega)
    (by omega) hy1 hne

theorem addDays_valid (d : Date) (hv : dateValid d) :
    ∀ k, dateValid (addDays d k)
  | 0 => hv
  | k + 1 => nextDay_valid (addDays d k) (addDays_valid d hv k)

theorem toOrd_addDays (d : Date) (hv : dateValid d) :
    ∀ k, toOrd (addDays d k) = toOrd d + k := by
  intro k
  induction k with
  | zero => rfl
  | succ n ih =>
    show toOrd (nextDay (addDays d n)) = toOrd d + (n + 1)
    rw [toOrd_nextDay (addDays d n) (addDays_valid d hv n), ih]
    omega

/-!
## Claim C8: date-range expansion
-/

/-- Counterexample to C8 as stated: the cross-year range 2024-12-31 to
2025-01-01 expands to 2 entries while `end.dayOfYear - start.dayOfYear + 1`
is `-364`; and the range ending at Python's maximal date 9999-12-31 raises
`OverflowError` instead of returning its entries. -/
theorem claim_C8_counterexample :
    date_range (str "2024-12-31") (str "2025-01-01")
       = .ok [str "2024-12-31", str "2025-01-01"]
    ∧ ((dayOfYear ⟨2025, 1, 1⟩ : Int) - (dayOfYear ⟨2024, 12, 31⟩ : Int) + 1 ≠ 2)
    ∧ date_range (str "9999-12-31") (str "9999-12-31") = .error .overflowError :=
  ⟨rfl, by decide, rfl⟩

/-- C8 amended: for every range whose endpoints parse as valid dates with
start ≤ end and end ≠ 9999-12-31 (at the maximal date the source raises
`OverflowError` instead), `date_range` returns
`toOrd end - toOrd start + 1` entries — the inclusive day count, equal to
`end.dayOfYear - start.dayOfYear + 1` exactly when the endpoints share a
year — beginning with the formatted start, ending with the formatted end,
every entry a `YYYY-MM-DD` calendar-date string. -/
theorem claim_C8_date_range_amended (start end_ : Str) (d0 d1 : Date)
    (l : List Str)
    (hs : parseIsoDate start = Option.some d0)
    (he : parseIsoDate end_ = Option.some d1)
    (hle : dateLe d0 d1 = true)
    (hne : d1 ≠ ⟨9999, 12, 31⟩)
    (hdr : date_range start end_ = .ok l) :
    l.length = toOrd d1 - toOrd d0 + 1
    ∧ l.head? = Option.some (pyFmtDate d0)
    ∧ l.getLast? = Option.some (pyFmtDate d1)
    ∧ (∀ e ∈ l, isYmdStr e = true)
    ∧ (d0.year = d1.year →
       (l.length : Int) = (dayOfYear d1 : Int) - (dayOfYear d0 : Int) + 1) := by
  have hv0 := parse_valid start d0 hs
  have hv1 := parse_valid end_ d1 he
  have hy1 := parse_year end_ d1 he
  have hord := toOrd_le_of_dateLe d0 d1 hv0 hv1 hle
  have hdr2 := date_range_ok start end_ d0 d1 hs he hle hne
  rw [hdr] at hdr2
  have hl := Except.ok.inj hdr2
  subst hl
  have hlen : (List.map (fun k => pyFmtDate (addDays d0 k))
      (List.range (toOrd d1 - toOrd d0 + 1))).length = toOrd d1 - toOrd d0 + 1 := by
    rw [List.length_map, List.length_range]
  refine ⟨hlen, ?_, ?_, ?_, ?_⟩
  · rw [List.head?_map, List.head?_range]
    rw [if_neg (by omega)]
    rfl
  · rw [List.getLast?_map, List.getLast?_range]
    rw [if_neg (by omega)]
    simp only [Nat.add_sub_cancel, Option.map_some']
    have hd1 : addDays d0 (toOrd d1 - toOrd d0) = d1 := by
      apply toOrd_inj _ _ (addDays_valid d0 hv0 _) hv1
      rw [toOrd_addDays d0 hv0]
      omega
    rw [hd1]
  · intro e he2
    obtain ⟨k, hk, hfe⟩ := List.mem_map.mp he2
    subst hfe
    have hkv := addDays_valid d0 hv0 k
    have hkord : toOrd (addDays d0 k) ≤ toOrd d1 := by
      rw [toOrd_addDays d0 hv0]
      have := List.mem_range.mp hk
      omega
    have hky : (addDays d0 k).year ≤ 9999 :=
      le_trans (dateLe_year _ _ (dateLe_of_toOrd_le _ _ hkv hv1 hkord)) hy1
    obtain ⟨-, -, hm12, -, hdd⟩ := hkv
    have hd31 := daysInMonth_le31 (addDays d0 k).year (addDays d0 k).month
    exact isYmdStr_fmt (addDays d0 k) hky (by omega) (by omega)
  · intro hyy
    rw [hlen]
    unfold toOrd
    rw [hyy]
    have hdoy0 := dayOfYear_pos d0 hv0
    have hdoy1 := dayOfYear_pos d1 hv1
    unfold toOrd at hord
    rw [hyy] at hord
    omega

/-- Witness for the amended C8 at a concrete input: a leap-February range. -/
theorem claim_C8_witness :
    date_range (str "2024-02-27") (str "2024-03-02")
      = .ok [str "2024-02-27", str "2024-02-28", str "2024-02-29",
             str "2024-03-01", str "2024-03-02"]
    ∧ ([str "2024-02-27", str "2024-02-28", str "2024-02-29",
        str "2024-03-01", str "2024-03-02"] : List Str).length
        = toOrd ⟨2024, 3, 2⟩ - toOrd ⟨2024, 2, 27⟩ + 1 :=
  ⟨rfl,
   (claim_C8_date_range_amended (str "2024-02-27") (str "2024-03-02")
      ⟨2024, 2, 27⟩ ⟨2024, 3, 2⟩
      [str "2024-02-27", str "2024-02-28", str "2024-02-29",
       str "2024-03-01", str "2024-03-02"]
      rfl rfl (by decide) (by decide) rfl).1⟩

/-!
## Claim C10: reversed inline-booking dates are an uncaught error
-/

/-- C10: for every inline-booking request (no truthy `bookingId`) whose
`dates.start`/`dates.end` parse — after the handler's 10-character
truncation — to dates with start strictly after end, the handler raises
the uncaught `ValueError` from `date_range` (line 511): the inline-booking
path (lines 441-449) performs no `start <= end` validation, so the request
is neither rejected as a 4xx input error nor planned. -/
theorem claim_C10_inline_reversed_dates (env : Env) (req : AgentRequest)
    (b : InlineBooking) (s e : Str) (ds de : Date)
    (hbid : truthyStr req.bookingId = false)
    (hbk : req.booking = Option.some b)
    (hdates : b.dates = Option.some ⟨Option.some s, Option.some e⟩)
    (hps : parseIsoDate (s.take 10) = Option.some ds)
    (hpe : parseIsoDate (e.take 10) = Option.some de)
    (hlt : dateLt de ds = true) :
    plan env req = .error (.uncaught (.valueError
      (str "Start date must be before or equal to end date"))) := by
  have hres : ∃ ctx prefs, resolveContext env req = .ok (ctx, prefs)
      ∧ ctx.start = s.take 10 ∧ ctx.end_ = e.take 10 := by
    unfold resolveContext
    rw [if_neg (by simp [hbid]), hbk]
    dsimp only
    rw [hdates]
    dsimp only [Option.getD]
    exact ⟨_, _, rfl, rfl, rfl⟩
  obtain ⟨ctx, prefs, hok, hst, hen⟩ := hres
  have hdr : date_range (s.take 10) (e.take 10)
      = .error (.valueError (str "Start date must be before or equal to end date")) := by
    unfold date_range
    rw [hps, hpe]
    dsimp only
    rw [if_pos hlt]
  unfold plan
  rw [hok, except_bind_ok]
  (try dsimp only)
  rw [hst, hen, hdr]
  (try dsimp only)
  rw [except_bind_error]

/-- Witness for C10 at the concrete inline booking with
`dates = {start: "2025-11-05", end: "2025-11-02"}`. -/
theorem claim_C10_witness :
    plan
      { useOllama := false, ollamaModel := str "llama3",
        lookup := fun _ => Option.none,
        backend := .returns Option.none,
        tavilyRestaurants := .errored, tavilyTips := .errored,
        today := ⟨2025, 1, 1⟩ }
      { bookingId := Option.none,
        booking := Option.some
          { dates := Option.some
              ⟨Option.some (str "2025-11-05"), Option.some (str "2025-11-02")⟩ },
        preferences := {}, free_text := Option.none }
      = .error (.uncaught (.valueError
          (str "Start date must be before or equal to end date"))) :=
  claim_C10_inline_reversed_dates _ _
    { dates := Option.some
        ⟨Option.some (str "2025-11-05"), Option.some (str "2025-11-02")⟩ }
    (str "2025-11-05") (str "2025-11-02")
    ⟨2025, 11, 5⟩ ⟨2025, 11, 2⟩
    rfl rfl rfl (by decide) (by decide) (by decide)

end AgentService